import Mathlib

/-!
Verification of the PaperTree PDF document-structure extraction engine.

The Python sources embedded here are
`apps/api/papertree_api/papers/extraction.py` (namespace `Extraction`) and
`apps/api/papertree_api/papers/services.py` (namespace `Services`).

Modelling conventions (shallow embedding):
* Python floats (font sizes, rectangle coordinates) are modelled as `ℚ`;
  none of the verified properties depends on floating-point rounding.
* Python strings are Lean `String`s (lists of unicode code points, matching
  Python length/indexing semantics).  Character classes used by the code
  (`str.isupper`, `\w`, `\s`, `str.lower`) are modelled for the ASCII and
  Greek ranges actually exercised by the heuristics.
* The PyMuPDF (`fitz`) collaborator is modelled as plain data: a `Doc` holds
  per-page text/image primitives, the built-in TOC and the metadata; page
  rasterisation (`get_pixmap`) and clipped text queries (`get_text` with
  `clip=`) are function-valued fields of `Page`, and a failing call is a
  `none` result (the code wraps each such call in `try/except`).
* `uuid.uuid4().hex[:12]` (in `generate_block_id` / `generate_image_id`) is
  modelled by two streams `Nat → String` of nonce strings consumed by
  per-run counters; a fresh run draws a fresh stream.
* A Python `dict` used as an insertion-ordered map (`self.images`) is an
  association list with update-in-place / append-if-new semantics.
* Python regular expressions used by the code are compiled by hand to
  character-list functions, preserving `re` backtracking semantics
  (greedy quantifiers with leftmost-match preference); each function notes
  the regex it implements.
-/

namespace PyStr

/-- Python whitespace test restricted to the ASCII whitespace characters
(space, tab, linefeed, carriage return, vertical tab, form feed). -/
def isWs (c : Char) : Bool :=
  c == ' ' || c == '\t' || c == '\n' || c == '\r' ||
  c == Char.ofNat 11 || c == Char.ofNat 12

/-- Python `str.lstrip()` on a character list. -/
def lstripL (l : List Char) : List Char := l.dropWhile isWs

/-- Python `str.rstrip()` on a character list. -/
def rstripL (l : List Char) : List Char := (l.reverse.dropWhile isWs).reverse

/-- Python `str.strip()` on a character list. -/
def stripL (l : List Char) : List Char := rstripL (lstripL l)

/-- Python `str.strip()`. -/
def strip (s : String) : String := ⟨stripL s.data⟩

/-- Python `str.lower()` (ASCII model; the code only lowercases ASCII
font names, section names and captions). -/
def lower (s : String) : String := ⟨s.data.map Char.toLower⟩

/-- Python `str.rstrip('.')`: drop all trailing full stops. -/
def rstripDot (s : String) : String :=
  ⟨(s.data.reverse.dropWhile (fun c => c == '.')).reverse⟩

/-- True when the list starts with a whitespace character (used for `\s+`). -/
def headWs (l : List Char) : Bool :=
  match l with
  | c :: _ => isWs c
  | [] => false

/-- Contiguous-sublist test: Python `needle in hay` for strings. -/
def containsL (needle : List Char) : List Char → Bool
  | [] => needle.isEmpty
  | c :: t => needle.isPrefixOf (c :: t) || containsL needle t

/-- Python `sub in s` for strings. -/
def containsS (hay sub : String) : Bool := containsL sub.data hay.data

/-- Cased-character test for the ASCII and Greek ranges
(model of Python `str.isupper` support). -/
def isCasedLower (c : Char) : Bool :=
  c.isLower || (0x3B1 ≤ c.toNat && c.toNat ≤ 0x3C9)

def isCasedUpper (c : Char) : Bool :=
  c.isUpper || (0x391 ≤ c.toNat && c.toNat ≤ 0x3A9)

def isCased (c : Char) : Bool := isCasedLower c || isCasedUpper c

/-- Python `str.isupper()` (ASCII + Greek model): at least one cased
character and no cased character is lowercase. -/
def pyIsUpper (s : String) : Bool :=
  s.data.any isCased && s.data.all (fun c => !(isCasedLower c))

/-- Python `\w` (word character), modelled for ASCII plus the Greek block. -/
def isWord (c : Char) : Bool :=
  c.isAlphanum || c == '_' || (0x370 ≤ c.toNat && c.toNat ≤ 0x3FF)

/-- Python `str.split('\n')`. -/
def splitNl (s : String) : List String := s.splitOn "\n"

end PyStr

/-!
Rational arithmetic.  The `Rat` field operations of Batteries are marked
`@[irreducible]`, which stops kernel evaluation (`decide`) on concrete
inputs.  The embedding therefore computes with the following wrappers,
each defined through `Rat.divInt` (which normalizes and evaluates in the
kernel); the theorems `qAdd_eq`, `qSub_eq`, `qMul_eq`, `qDiv_eq` below
prove them equal to the standard `ℚ` operations, so every definition
using them agrees with ordinary rational arithmetic.
-/

def qAdd (a b : ℚ) : ℚ := Rat.divInt (a.num * b.den + b.num * a.den) (a.den * b.den)

def qSub (a b : ℚ) : ℚ := Rat.divInt (a.num * b.den - b.num * a.den) (a.den * b.den)

def qMul (a b : ℚ) : ℚ := Rat.divInt (a.num * b.num) (a.den * b.den)

def qDiv (a b : ℚ) : ℚ := Rat.divInt (a.num * b.den) (a.den * b.num)

/-- Python `sep.join(parts)`. -/
def joinSep (sep : String) : List String → String
  | [] => ""
  | [x] => x
  | x :: y :: rest => x ++ sep ++ joinSep sep (y :: rest)

namespace Extraction

/-- A PyMuPDF rectangle (`fitz.Rect`), in page coordinates. -/
structure Rect where
  x0 : ℚ
  y0 : ℚ
  x1 : ℚ
  y1 : ℚ
deriving DecidableEq

def Rect.width (r : Rect) : ℚ := qSub r.x1 r.x0

def Rect.height (r : Rect) : ℚ := qSub r.y1 r.y0

/-- `fitz.Rect.__and__`: rectangle intersection. -/
def Rect.inter (a b : Rect) : Rect :=
  ⟨max a.x0 b.x0, max a.y0 b.y0, min a.x1 b.x1, min a.y1 b.y1⟩

/-- `BoundingBox`: normalized (0-1) coordinates relative to the page. -/
structure BoundingBox where
  x0 : ℚ
  y0 : ℚ
  x1 : ℚ
  y1 : ℚ
deriving DecidableEq

/-- `BoundingBox.from_rect`. -/
def BoundingBox.from_rect (rect : Rect) (page_rect : Rect) : BoundingBox :=
  { x0 := qDiv rect.x0 page_rect.width
    y0 := qDiv rect.y0 page_rect.height
    x1 := qDiv rect.x1 page_rect.width
    y1 := qDiv rect.y1 page_rect.height }

/-- `SourceLocation`: where content came from in the PDF. -/
structure SourceLocation where
  page : Nat
  bbox : Option BoundingBox := none
  char_start : Option Nat := none
  char_end : Option Nat := none
deriving DecidableEq

/-- The `ContentBlock` hierarchy (`HeadingBlock`, `TextBlock`, `MathBlock`,
`FigureBlock`, `ListBlock`), as a sum type.  `CodeBlock` and `TableBlock`
are declared in the source but never constructed by the extractor. -/
inductive CBlock where
  | heading (id : String) (source : SourceLocation) (level : Nat) (content : String)
  | text (id : String) (source : SourceLocation) (content : String)
  | math (id : String) (source : SourceLocation) (latex : Option String)
      (image_id : Option String) (alt_text : String) (display : Bool)
  | figure (id : String) (source : SourceLocation) (image_id : String)
      (caption : Option String) (figure_number : Option String)
  | listB (id : String) (source : SourceLocation) (items : List String) (ordered : Bool)
deriving DecidableEq

def CBlock.id : CBlock → String
  | .heading i _ _ _ => i
  | .text i _ _ => i
  | .math i _ _ _ _ _ => i
  | .figure i _ _ _ _ => i
  | .listB i _ _ _ => i

def CBlock.source : CBlock → SourceLocation
  | .heading _ s _ _ => s
  | .text _ s _ => s
  | .math _ s _ _ _ _ => s
  | .figure _ s _ _ _ => s
  | .listB _ s _ _ => s

/-- `OutlineItem`.  `level` and `page` are `Int` because TOC entries come
from the PDF with arbitrary integer levels and 1-indexed pages. -/
structure OutlineItem where
  title : String
  level : Int
  block_id : String
  page : Int
deriving DecidableEq

/-- `ExtractedImage` (raw bytes modelled as a list of byte values). -/
structure ExtractedImage where
  id : String
  data : List Nat
  mime_type : String
  page : Nat
  bbox : BoundingBox
deriving DecidableEq

/-- The image record stored in `ExtractionResult.images`
(`{"id", "page", "mime_type", "bbox"}`; the raw bytes are dropped). -/
structure ResImage where
  id : String
  page : Nat
  mime_type : String
  bbox : BoundingBox
deriving DecidableEq

/-- `ExtractionResult`.  `images` is the insertion-ordered dict. -/
structure ExtractionResult where
  blocks : List CBlock
  outline : List OutlineItem
  images : List (String × ResImage)
  metadata : List (String × String)
  plain_text : String
  page_count : Nat
deriving DecidableEq

/-! Input model of the `fitz` collaborator. -/

/-- One span of `page.get_text("dict")`. -/
structure Span where
  text : String
  font : String
  size : ℚ
  flags : Nat

/-- One line of a text block. -/
structure Line where
  bbox : Rect
  spans : List Span

/-- One block of `page.get_text("dict")["blocks"]`: type 0 (text) or 1 (image). -/
inductive PBlock where
  | textB (bbox : Rect) (lines : List Line)
  | imageB (bbox : Rect)

/-- One entry of `page.get_images(full=True)` together with the per-xref
queries the code makes: `page.get_image_rects(xref)` and
`doc.extract_image(xref)` (`none` models a falsy/failing result). -/
structure PageImg where
  rects : List Rect
  extracted : Option (List Nat × String)

/-- A document page.  `raster` models `page.get_pixmap(matrix=Matrix(2,2),
clip=r).tobytes("png")` (`none` = the call raised); `clipText` models
`page.get_text("text", clip=r)`. -/
structure Page where
  rect : Rect
  blocks : List PBlock
  images : List PageImg
  raster : Rect → Option (List Nat)
  clipText : Rect → String

/-- Metadata dict of the document (`doc.metadata`), `none` when falsy. -/
structure Meta where
  title : String
  author : String
  subject : String
  keywords : String
  creator : String

/-- A TOC entry of `doc.get_toc()`: `(level, title, page)` with page 1-indexed. -/
structure TocEntry where
  level : Int
  title : String
  page : Int

/-- The opened document. -/
structure Doc where
  pages : List Page
  toc : List TocEntry
  metadata : Option Meta

end Extraction

namespace Extraction

/-- `MATH_FONTS` (extraction.py). -/
def MATH_FONTS : List String :=
  ["cmmi", "cmsy", "cmex", "msam", "msbm", "cmr",
   "symbol", "mt extra", "mathematica",
   "stix", "cambria math", "asana", "xits",
   "latinmodern", "euler", "fourier",
   "newcm", "libertinus", "garamond-math"]

/-- `MATH_CHAR_RANGES` (extraction.py). -/
def MATH_CHAR_RANGES : List (Nat × Nat) :=
  [(0x0370, 0x03FF), (0x2200, 0x22FF), (0x2100, 0x214F), (0x2190, 0x21FF),
   (0x27C0, 0x27EF), (0x2980, 0x29FF), (0x2A00, 0x2AFF),
   (0x1D400, 0x1D7FF), (0x2070, 0x209F)]

/-- `COMMON_SECTIONS` (extraction.py). -/
def COMMON_SECTIONS : List String :=
  ["abstract", "introduction", "background", "related work",
   "methodology", "methods", "materials and methods", "approach",
   "experiments", "experimental setup", "evaluation",
   "results", "findings", "analysis",
   "discussion", "limitations", "future work",
   "conclusion", "conclusions", "summary",
   "acknowledgments", "acknowledgements",
   "references", "bibliography", "appendix", "supplementary"]

/-- `is_math_char` (extraction.py). -/
def is_math_char (c : Char) : Bool :=
  MATH_CHAR_RANGES.any (fun r => r.1 ≤ c.toNat && c.toNat ≤ r.2)

/-- `is_math_font` (extraction.py): some math-font name occurs in the
lowercased font name. -/
def is_math_font (font_name : String) : Bool :=
  MATH_FONTS.any (fun mf => PyStr.containsS (PyStr.lower font_name) mf)

/-- `generate_block_id` applied to the run's uuid nonce: `blk_` plus the
next value of the block-id stream. -/
def generate_block_id (sb : Nat → String) (n : Nat) : String :=
  "blk_" ++ sb n

/-- `generate_image_id` applied to the run's uuid nonce. -/
def generate_image_id (si : Nat → String) (n : Nat) : String :=
  "img_" ++ si n

/-! Hand-compiled regular expressions of `_classify_line`. -/

/-- Bullet characters of the list pattern regex class. -/
def bulletChars : List Char := ['•', '·', '●', '○', '▪', '▸']

/-- Dash characters of the list pattern regex class. -/
def dashChars : List Char := ['-', '–', '—']

/-- List pattern 1 and 2: a bullet or dash character followed by
whitespace, after optional leading whitespace. -/
def matchCharWs (cls : List Char) (l : List Char) : Bool :=
  match l.dropWhile PyStr.isWs with
  | c :: rest => cls.contains c && PyStr.headWs rest
  | [] => false

/-- List pattern 3 (regex `\s*\d+[.)]\s+` at the start). -/
def matchNumMark (l : List Char) : Bool :=
  let l1 := l.dropWhile PyStr.isWs
  let ds := l1.takeWhile Char.isDigit
  !ds.isEmpty &&
    (match l1.drop ds.length with
     | c :: rest => (c == '.' || c == ')') && PyStr.headWs rest
     | [] => false)

/-- List pattern 4 (regex `\s*[a-z][.)]\s+` at the start). -/
def matchAlphaMark (l : List Char) : Bool :=
  match l.dropWhile PyStr.isWs with
  | a :: c :: rest => a.isLower && (c == '.' || c == ')') && PyStr.headWs rest
  | _ => false

/-- List pattern 5 (regex `\s*\([a-z\d]+\)\s+` at the start). -/
def matchParenMark (l : List Char) : Bool :=
  match l.dropWhile PyStr.isWs with
  | c :: rest =>
    c == '(' &&
      (let body := rest.takeWhile (fun x => x.isLower || x.isDigit)
       !body.isEmpty &&
         (match rest.drop body.length with
          | d :: rest2 => d == ')' && PyStr.headWs rest2
          | [] => false))
  | [] => false

/-- All five `list_patterns` of `_classify_line`. -/
def isListLine (l : List Char) : Bool :=
  matchCharWs bulletChars l || matchCharWs dashChars l ||
  matchNumMark l || matchAlphaMark l || matchParenMark l

/-- Parse one `\d+\.` group; returns the rest on success. -/
def parseNumDot (l : List Char) : Option (List Char) :=
  let ds := l.takeWhile Char.isDigit
  if ds.isEmpty then none
  else
    match l.drop ds.length with
    | c :: rest => if c == '.' then some rest else none
    | [] => none

/-- Greedy repetition of `\d+\.` groups (regex `\d+\.(?:\d+\.)*`), with a
fuel argument for structural recursion; returns the number of groups
consumed and the remainder.  Fuel equal to the list length always
suffices because each group consumes at least two characters. -/
def numDotStarF : Nat → List Char → Nat × List Char
  | 0, l => (0, l)
  | fuel + 1, l =>
    match parseNumDot l with
    | some rest =>
      let p := numDotStarF fuel rest
      (p.1 + 1, p.2)
    | none => (0, l)

/-- Maximal prefix of `\d+\.` groups of a line. -/
def numDotStar (l : List Char) : Nat × List Char := numDotStarF l.length l

/-- `SECTION_PATTERNS[0]`: regex `^(\d+\.(?:\d+\.)*)\s+(.+)$`. -/
def matchSectionNum (l : List Char) : Bool :=
  let p := numDotStar l
  p.1 ≥ 1 && PyStr.headWs p.2 && !(p.2.dropWhile PyStr.isWs).isEmpty

/-- Roman-numeral character class `[IVXLC]` under `re.IGNORECASE`. -/
def isRomanIC (c : Char) : Bool :=
  ['i', 'v', 'x', 'l', 'c'].contains c.toLower

/-- `SECTION_PATTERNS[1]`: regex `^([IVXLC]+\.?)\s+(.+)$` (IGNORECASE). -/
def matchSectionRoman (l : List Char) : Bool :=
  let rs := l.takeWhile isRomanIC
  !rs.isEmpty &&
    (let r := l.drop rs.length
     (match r with
      | c :: r2 => c == '.' && PyStr.headWs r2 && !(r2.dropWhile PyStr.isWs).isEmpty
      | [] => false) ||
     (PyStr.headWs r && !(r.dropWhile PyStr.isWs).isEmpty))

/-- `SECTION_PATTERNS[2]`: regex `^([A-Z]\.)\s+(.+)$` (IGNORECASE). -/
def matchSectionLetter (l : List Char) : Bool :=
  match l with
  | a :: c :: rest =>
    a.isAlpha && c == '.' && PyStr.headWs rest && !(rest.dropWhile PyStr.isWs).isEmpty
  | _ => false

/-- `_classify_line` (extraction.py): priority order is math ratio, list
patterns, overlong text, numbered/roman/letter section patterns, common
section names, font-size heuristic, all-caps heuristic, then text. -/
def classify_line (median_font_size : ℚ) (text : String) (font_size : ℚ)
    (is_bold : Bool) (math_ratio : ℚ) (_page_num : Nat) : String :=
  let ts := PyStr.strip text
  if math_ratio > Rat.divInt 2 5 then "math"
  else if isListLine ts.data then "list"
  else if ts.length > 100 then "text"
  else if matchSectionNum ts.data || matchSectionRoman ts.data ||
          matchSectionLetter ts.data then "heading"
  else if COMMON_SECTIONS.contains (PyStr.rstripDot (PyStr.lower ts)) then "heading"
  else if font_size > qMul median_font_size (Rat.divInt 6 5) && (is_bold || ts.length < 80)
    then "heading"
  else if PyStr.pyIsUpper ts && 3 < ts.length && ts.length < 60 then "heading"
  else "text"

/-- `_determine_heading_level` (extraction.py): the matched group of regex
`^(\d+\.(?:\d+\.)*)` contains one full stop per `\d+\.` unit, so its dot
count is the number of units consumed by `numDotStar`. -/
def determine_heading_level (median_font_size : ℚ) (font_size : ℚ)
    (text : String) : Nat :=
  let dots := (numDotStar text.data).1
  if dots ≠ 0 then min (dots + 1) 6
  else
    let ratio := qDiv font_size median_font_size
    if ratio > Rat.divInt 16 10 then 1
    else if ratio > Rat.divInt 13 10 then 2
    else if ratio > Rat.divInt 11 10 then 3
    else 4

end Extraction

namespace Extraction

/-- Python `str.replace(pat, rep)` (all non-overlapping occurrences, left
to right), fuelled for structural recursion; the pattern is nonempty in
every use, so fuel equal to the input length suffices. -/
def replaceAllF (pat rep : List Char) : Nat → List Char → List Char
  | _, [] => []
  | 0, l => l
  | fuel + 1, c :: rest =>
    if pat.isPrefixOf (c :: rest) then
      rep ++ replaceAllF pat rep fuel ((c :: rest).drop pat.length)
    else c :: replaceAllF pat rep fuel rest

def replaceAll (s pat rep : String) : String :=
  ⟨replaceAllF pat.data rep.data s.data.length s.data⟩

/-- The `replacements` dict of `_clean_text`, in insertion order.  The
smart-quote line of the committed source is mangled: parsed by Python it
yields the identity entry for the ASCII double quote and an entry mapping
the seven-character string colon-space-dquote-quote-dquote-comma-space to
a single quote; we embed exactly what the interpreter sees. -/
def CLEAN_REPLACEMENTS : List (String × String) :=
  [("ﬁ", "fi"), ("ﬂ", "fl"), ("ﬀ", "ff"), ("ﬃ", "ffi"), ("ﬄ", "ffl"),
   ("−", "-"), ("–", "-"), ("—", "-"),
   ("\"", "\""), (": \"\x27\", ", "\x27"),
   ("…", "..."), ("\u00ad", ""), ("\u200b", ""), ("\ufeff", "")]

/-- Regex `re.sub(r' +', ' ', text)`: collapse runs of spaces. -/
def collapseSpaces : List Char → List Char
  | [] => []
  | [c] => [c]
  | c1 :: c2 :: rest =>
    if c1 == ' ' && c2 == ' ' then collapseSpaces (c2 :: rest)
    else c1 :: collapseSpaces (c2 :: rest)

def sentencePunct : List Char := ['.', ',', ';', ':', '!', '?']

/-- Regex `re.sub(r'\s+([.,;:!?])', r'\1', text)`: a whitespace character
is deleted exactly when the next non-whitespace character exists and is
sentence punctuation (equivalent to the leftmost-nonoverlapping `re.sub`). -/
def nextNonWsPunct (l : List Char) : Bool :=
  match l.dropWhile PyStr.isWs with
  | p :: _ => sentencePunct.contains p
  | [] => false

def dropWsBeforePunct : List Char → List Char
  | [] => []
  | c :: rest =>
    if PyStr.isWs c && nextNonWsPunct rest then dropWsBeforePunct rest
    else c :: dropWsBeforePunct rest

/-- `_clean_text` (extraction.py). -/
def clean_text (text : String) : String :=
  let t := CLEAN_REPLACEMENTS.foldl (fun s p => replaceAll s p.1 p.2) text
  PyStr.strip ⟨dropWsBeforePunct (collapseSpaces t.data)⟩

/-- The merged `{**greek, **operators}` dict of `_text_to_latex`,
in insertion order. -/
def GREEK_OPS : List (String × String) :=
  [("α", "\\alpha"), ("β", "\\beta"), ("γ", "\\gamma"), ("δ", "\\delta"),
   ("ε", "\\epsilon"), ("ζ", "\\zeta"), ("η", "\\eta"), ("θ", "\\theta"),
   ("ι", "\\iota"), ("κ", "\\kappa"), ("λ", "\\lambda"), ("μ", "\\mu"),
   ("ν", "\\nu"), ("ξ", "\\xi"), ("π", "\\pi"), ("ρ", "\\rho"),
   ("σ", "\\sigma"), ("τ", "\\tau"), ("υ", "\\upsilon"), ("φ", "\\phi"),
   ("χ", "\\chi"), ("ψ", "\\psi"), ("ω", "\\omega"),
   ("Γ", "\\Gamma"), ("Δ", "\\Delta"), ("Θ", "\\Theta"), ("Λ", "\\Lambda"),
   ("Ξ", "\\Xi"), ("Π", "\\Pi"), ("Σ", "\\Sigma"), ("Φ", "\\Phi"),
   ("Ψ", "\\Psi"), ("Ω", "\\Omega"),
   ("∑", "\\sum"), ("∏", "\\prod"), ("∫", "\\int"), ("∬", "\\iint"),
   ("√", "\\sqrt"), ("∞", "\\infty"), ("∂", "\\partial"),
   ("∇", "\\nabla"), ("±", "\\pm"), ("×", "\\times"), ("÷", "\\div"),
   ("≤", "\\leq"), ("≥", "\\geq"), ("≠", "\\neq"), ("≈", "\\approx"),
   ("∈", "\\in"), ("∉", "\\notin"), ("⊂", "\\subset"), ("⊃", "\\supset"),
   ("∪", "\\cup"), ("∩", "\\cap"), ("∧", "\\land"), ("∨", "\\lor"),
   ("¬", "\\neg"), ("→", "\\rightarrow"), ("←", "\\leftarrow"),
   ("↔", "\\leftrightarrow"), ("⇒", "\\Rightarrow"), ("⇐", "\\Leftarrow"),
   ("∀", "\\forall"), ("∃", "\\exists"), ("∅", "\\emptyset"),
   ("ℝ", "\\mathbb\x7bR\x7d"), ("ℕ", "\\mathbb\x7bN\x7d"),
   ("ℤ", "\\mathbb\x7bZ\x7d"), ("ℂ", "\\mathbb\x7bC\x7d"),
   ("ℚ", "\\mathbb\x7bQ\x7d")]

/-- Regex `re.sub(r'(\w+)/(\w+)', r'\\frac{\1}{\2}', latex)`, fuelled. -/
def fracSubF : Nat → List Char → List Char
  | _, [] => []
  | 0, l => l
  | fuel + 1, c :: rest =>
    if PyStr.isWord c then
      let w1 := (c :: rest).takeWhile PyStr.isWord
      match (c :: rest).drop w1.length with
      | '/' :: r2 =>
        let w2 := r2.takeWhile PyStr.isWord
        if w2.isEmpty then c :: fracSubF fuel rest
        else
          ("\\frac\x7b".data ++ w1 ++ "\x7d\x7b".data ++ w2 ++ ['\x7d']) ++
            fracSubF fuel (r2.drop w2.length)
      | _ => c :: fracSubF fuel rest
    else c :: fracSubF fuel rest

def fracSub (s : String) : String := ⟨fracSubF s.data.length s.data⟩

/-- Regexes `re.sub(r'\^(\d+)', r'^{\1}', _)` and `re.sub(r'_(\d+)',
r'_{\1}', _)`: wrap a digit run after the marker in braces. -/
def supDigitF (mark : Char) : Nat → List Char → List Char
  | _, [] => []
  | 0, l => l
  | fuel + 1, c :: rest =>
    if c == mark then
      let ds := rest.takeWhile Char.isDigit
      if ds.isEmpty then c :: supDigitF mark fuel rest
      else (c :: '\x7b' :: (ds ++ ['\x7d'])) ++ supDigitF mark fuel (rest.drop ds.length)
    else c :: supDigitF mark fuel rest

/-- Regexes wrapping a single character after the marker in braces:
`re.sub(r'\^([a-zA-Z])', ...)`, `re.sub(r'_([a-zA-Z])', ...)` (with
`Char.isAlpha`) and `re.sub(r'_(\w)', ...)` (with `PyStr.isWord`). -/
def supLetterF (mark : Char) (pred : Char → Bool) : Nat → List Char → List Char
  | _, [] => []
  | 0, l => l
  | fuel + 1, c :: rest =>
    if c == mark then
      match rest with
      | a :: r2 =>
        if pred a then (c :: '\x7b' :: a :: ['\x7d']) ++ supLetterF mark pred fuel r2
        else c :: supLetterF mark pred fuel rest
      | [] => [c]
    else c :: supLetterF mark pred fuel rest

def supDigit (mark : Char) (s : String) : String := ⟨supDigitF mark s.data.length s.data⟩

def supLetter (mark : Char) (s : String) : String :=
  ⟨supLetterF mark Char.isAlpha s.data.length s.data⟩

def supWord (mark : Char) (s : String) : String :=
  ⟨supLetterF mark PyStr.isWord s.data.length s.data⟩

/-- `_text_to_latex` (extraction.py). -/
def text_to_latex (text : String) : Option String :=
  if text.data.isEmpty then none
  else
    let l1 := GREEK_OPS.foldl (fun s p => replaceAll s p.1 (p.2 ++ " ")) text
    let l2 := fracSub l1
    let l3 := supLetter '^' (supDigit '^' l2)
    let l4 := supLetter '_' (supDigit '_' l3)
    if l4 == text then none else some (PyStr.strip l4)

/-- The marker alternation of `_add_list_item`:
regex `^\s*([•·●○▪▸\-–—]|\d+[.)]|[a-z][.)]|\([a-z\d]+\))\s*`. -/
def markerAlt (cls : List Char) (l : List Char) : Option (List Char) :=
  match l with
  | [] => none
  | c :: rest =>
    if cls.contains c then some rest
    else
      (let ds := l.takeWhile Char.isDigit
       if ds.isEmpty then none
       else
         match l.drop ds.length with
         | d :: r2 => if d == '.' || d == ')' then some r2 else none
         | [] => none).orElse (fun _ =>
      (if c.isLower then
         match rest with
         | d :: r2 => if d == '.' || d == ')' then some r2 else none
         | [] => none
       else none).orElse (fun _ =>
       if c == '(' then
         let body := rest.takeWhile (fun x => x.isLower || x.isDigit)
         if body.isEmpty then none
         else
           match rest.drop body.length with
           | d :: r2 => if d == ')' then some r2 else none
           | [] => none
       else none))

/-- `re.sub` of the marker regex with the empty string: only a match at
the start is replaced; no match leaves the text unchanged. -/
def stripListMarker (text : String) : String :=
  match markerAlt (bulletChars ++ dashChars) (text.data.dropWhile PyStr.isWs) with
  | some rest => ⟨rest.dropWhile PyStr.isWs⟩
  | none => text

/-- Regex `^\s*\d+[.)]` (the `ordered` test of `_add_list_item`). -/
def orderedMark (text : String) : Bool :=
  let l := text.data.dropWhile PyStr.isWs
  let ds := l.takeWhile Char.isDigit
  !ds.isEmpty &&
    (match l.drop ds.length with
     | c :: _ => c == '.' || c == ')'
     | [] => false)

/-- Case-insensitive literal prefix: remainder of `l` when its lowercase
form starts with `p` (p is given lowercase). -/
def lowerPrefixOf (p : String) (l : List Char) : Option (List Char) :=
  if p.data.isPrefixOf (l.map Char.toLower) then some (l.drop p.data.length) else none

/-- `\s*\d` after the caption keyword. -/
def capAfterNum (rest : List Char) : Bool :=
  match rest.dropWhile PyStr.isWs with
  | d :: _ => d.isDigit
  | [] => false

/-- Regex `^(Figure|Fig\.?|Table|Scheme)\s*\d` (IGNORECASE), alternation
tried left to right. -/
def matchCaptionStart (l : List Char) : Bool :=
  (match lowerPrefixOf "figure" l with
   | some r => capAfterNum r
   | none => false) ||
  (match lowerPrefixOf "fig" l with
   | some ('.' :: r2) => capAfterNum r2
   | some r => capAfterNum r
   | none => false) ||
  (match lowerPrefixOf "table" l with
   | some r => capAfterNum r
   | none => false) ||
  (match lowerPrefixOf "scheme" l with
   | some r => capAfterNum r
   | none => false)

/-- Group 2 of regex `^(Figure|Fig\.?|Table|Scheme)\s*(\d+[a-z]?)`. -/
def figNumFrom (rest : List Char) : Option String :=
  let r := rest.dropWhile PyStr.isWs
  let ds := r.takeWhile Char.isDigit
  if ds.isEmpty then none
  else
    some ⟨ds ++
      (match r.drop ds.length with
       | c :: _ => if c.isLower then [c] else []
       | [] => [])⟩

/-- `_extract_figure_number` (extraction.py). -/
def extract_figure_number (caption : String) : Option String :=
  let l := caption.data
  (match lowerPrefixOf "figure" l with
   | some r => figNumFrom r
   | none => none).orElse (fun _ =>
  (match lowerPrefixOf "fig" l with
   | some ('.' :: r2) => figNumFrom r2
   | some r => figNumFrom r
   | none => none).orElse (fun _ =>
  (match lowerPrefixOf "table" l with
   | some r => figNumFrom r
   | none => none).orElse (fun _ =>
   match lowerPrefixOf "scheme" l with
   | some r => figNumFrom r
   | none => none)))

/-- The caption-accumulation loop of `_find_figure_caption`: keep stripped
nonempty lines, stop after a line ending in a full stop, or at a blank
line once something was collected. -/
def captionLines : List String → List String → List String
  | [], acc => acc.reverse
  | ln :: rest, acc =>
    let l := PyStr.strip ln
    if !l.data.isEmpty then
      if l.data.getLast? == some '.' then (l :: acc).reverse
      else captionLines rest (l :: acc)
    else if !acc.isEmpty then acc.reverse
    else captionLines rest acc

/-- `_find_figure_caption` (extraction.py). -/
def find_figure_caption (page : Page) (img_rect : Rect) : Option String :=
  let search := Rect.inter
    ⟨qSub img_rect.x0 20, img_rect.y1, qAdd img_rect.x1 20, qAdd img_rect.y1 60⟩ page.rect
  let text := PyStr.strip (page.clipText search)
  if matchCaptionStart text.data then
    some ⟨(joinSep " " (captionLines (PyStr.splitNl text) [])).data.take 500⟩
  else none

end Extraction

namespace Extraction

/-- Per-run context: the uuid nonce streams and the median font size
computed by the statistics pass. -/
structure Ctx where
  sb : Nat → String
  si : Nat → String
  median : ℚ

/-- Mutable extractor state (`self.blocks`, `self.images`,
`self.plain_text_parts`, `self.char_offset`, and the two uuid-stream
counters).  `blocksRev` and `ptpRev` hold the lists newest-first; the
final result reverses them. -/
structure St where
  blocksRev : List CBlock
  images : List (String × ExtractedImage)
  ptpRev : List String
  charOffset : Nat
  blkCtr : Nat
  imgCtr : Nat

def initSt : St := ⟨[], [], [], 0, 0, 0⟩

/-- Python dict assignment `d[k] = v`: update in place when the key
exists, append otherwise. -/
def dictInsert (l : List (String × ExtractedImage)) (k : String)
    (v : ExtractedImage) : List (String × ExtractedImage) :=
  if l.any (fun kv => kv.1 == k) then
    l.map (fun kv => if kv.1 == k then (k, v) else kv)
  else l ++ [(k, v)]

/-- One step of the `text_parts` loop of `_flush_paragraph` (accumulator
newest-first): a previous fragment ending in a hyphen absorbs the next
line without the hyphen and without a joining space. -/
def paraStep (partsRev : List String) (t : String) : List String :=
  match partsRev with
  | last :: rest =>
    if last.data.getLast? == some '-' then
      (String.mk (last.data.dropLast) ++ t) :: rest
    else t :: last :: rest
  | [] => [t]

/-- The joined (pre-cleanup) paragraph text of `_flush_paragraph`:
`' '.join(text_parts)`. -/
def paraJoin (texts : List String) : String :=
  joinSep " " (texts.foldl paraStep []).reverse

def listMin (l : List ℚ) : ℚ :=
  match l with
  | [] => 0
  | x :: r => r.foldl min x

def listMax (l : List ℚ) : ℚ :=
  match l with
  | [] => 0
  | x :: r => r.foldl max x

/-- `_flush_paragraph` (extraction.py).  `lines` is the accumulated
`current_paragraph` (line text and line rectangle, oldest first). -/
def flush_paragraph (ctx : Ctx) (page_num : Nat) (page_rect : Rect)
    (lines : List (String × Rect)) (st : St) : St :=
  match lines with
  | [] => st
  | _ =>
    let content := clean_text (paraJoin (lines.map Prod.fst))
    if (PyStr.strip content).data.isEmpty then st
    else
      let combined : Rect :=
        ⟨listMin (lines.map (fun p => p.2.x0)), listMin (lines.map (fun p => p.2.y0)),
         listMax (lines.map (fun p => p.2.x1)), listMax (lines.map (fun p => p.2.y1))⟩
      let src : SourceLocation :=
        ⟨page_num, some (BoundingBox.from_rect combined page_rect),
         some st.charOffset, some (st.charOffset + content.length)⟩
      { st with
        blocksRev := CBlock.text (generate_block_id ctx.sb st.blkCtr) src content :: st.blocksRev
        blkCtr := st.blkCtr + 1
        ptpRev := content :: st.ptpRev
        charOffset := st.charOffset + content.length + 2 }

/-- `_add_list_item` (extraction.py).  The source location records the
length of the raw line text, while the plain text and the offset advance
by the cleaned item text. -/
def add_list_item (ctx : Ctx) (text : String) (rect : Rect) (page_num : Nat)
    (page_rect : Rect) (st : St) : St :=
  let cleaned := stripListMarker text
  let ordered := orderedMark text
  let src : SourceLocation :=
    ⟨page_num, some (BoundingBox.from_rect rect page_rect),
     some st.charOffset, some (st.charOffset + text.length)⟩
  let fresh : St :=
    { st with
      blocksRev := CBlock.listB (generate_block_id ctx.sb st.blkCtr) src [cleaned] ordered :: st.blocksRev
      blkCtr := st.blkCtr + 1
      ptpRev := cleaned :: st.ptpRev
      charOffset := st.charOffset + cleaned.length + 2 }
  match st.blocksRev with
  | CBlock.listB lid lsrc litems lord :: rest =>
    if lord == ordered then
      { st with
        blocksRev := CBlock.listB lid lsrc (litems ++ [cleaned]) lord :: rest
        ptpRev := cleaned :: st.ptpRev
        charOffset := st.charOffset + cleaned.length + 2 }
    else fresh
  | _ => fresh

/-- `_extract_math_block` (extraction.py). -/
def extract_math_block (ctx : Ctx) (text : String) (rect : Rect) (page : Page)
    (page_num : Nat) (page_rect : Rect) (st : St) : St :=
  let latex := text_to_latex text
  let expanded := Rect.inter
    ⟨qSub rect.x0 5, qSub rect.y0 5, qAdd rect.x1 5, qAdd rect.y1 5⟩ page.rect
  let idSt : Option String × St :=
    match page.raster expanded with
    | some bytes =>
      let iid := generate_image_id ctx.si st.imgCtr
      (some iid,
       { st with
         images := dictInsert st.images iid
           ⟨iid, bytes, "image/png", page_num, BoundingBox.from_rect rect page_rect⟩
         imgCtr := st.imgCtr + 1 })
    | none => (none, st)
  let st1 := idSt.2
  let src : SourceLocation :=
    ⟨page_num, some (BoundingBox.from_rect rect page_rect),
     some st1.charOffset, some (st1.charOffset + text.length)⟩
  let is_display := (PyStr.strip text).length > 20 || text.data.contains '='
  { st1 with
    blocksRev := CBlock.math (generate_block_id ctx.sb st1.blkCtr) src latex idSt.1 text is_display :: st1.blocksRev
    blkCtr := st1.blkCtr + 1
    ptpRev := text :: st1.ptpRev
    charOffset := st1.charOffset + text.length + 2 }

/-- Aggregate signals of one line (`_process_text_block` span loop). -/
def line_text (line : Line) : String :=
  ⟨(line.spans.map (fun s => s.text.data)).flatten⟩

def line_max_font (line : Line) : ℚ :=
  line.spans.foldl (fun m s => max m s.size) 0

def line_is_bold (line : Line) : Bool :=
  line.spans.any (fun s => s.flags &&& 16 != 0)

/-- `(total_chars, math_chars)`: every character counts toward the total;
a character counts as mathematical when `is_math_char` holds or its span
font `is_math_font`. -/
def line_counts (line : Line) : Nat × Nat :=
  line.spans.foldl
    (fun acc s =>
      (acc.1 + s.text.length,
       acc.2 + (s.text.data.filter (fun c => is_math_char c || is_math_font s.font)).length))
    (0, 0)

def line_math_ratio (line : Line) : ℚ :=
  let c := line_counts line
  if 0 < c.1 then qDiv (c.2 : ℚ) (c.1 : ℚ) else 0

/-- The per-line body of `_process_text_block`: skip blank lines, classify,
and either emit a heading / math / list block (flushing the paragraph
accumulator) or extend the accumulator. -/
def process_line (ctx : Ctx) (page : Page) (page_num : Nat) (page_rect : Rect)
    (sp : St × List (String × Rect)) (line : Line) : St × List (String × Rect) :=
  let lt := PyStr.strip (line_text line)
  if lt.data.isEmpty then sp
  else
    let cls := classify_line ctx.median lt (line_max_font line) (line_is_bold line)
      (line_math_ratio line) page_num
    if cls == "heading" then
      let st1 := flush_paragraph ctx page_num page_rect sp.2 sp.1
      let level := determine_heading_level ctx.median (line_max_font line) lt
      let src : SourceLocation :=
        ⟨page_num, some (BoundingBox.from_rect line.bbox page_rect),
         some st1.charOffset, some (st1.charOffset + lt.length)⟩
      ({ st1 with
         blocksRev := CBlock.heading (generate_block_id ctx.sb st1.blkCtr) src level lt :: st1.blocksRev
         blkCtr := st1.blkCtr + 1
         ptpRev := lt :: st1.ptpRev
         charOffset := st1.charOffset + lt.length + 2 }, [])
    else if cls == "math" then
      let st1 := flush_paragraph ctx page_num page_rect sp.2 sp.1
      (extract_math_block ctx lt line.bbox page page_num page_rect st1, [])
    else if cls == "list" then
      let st1 := flush_paragraph ctx page_num page_rect sp.2 sp.1
      (add_list_item ctx lt line.bbox page_num page_rect st1, [])
    else
      (sp.1, sp.2 ++ [(lt, line.bbox)])

/-- `_process_text_block` (extraction.py): fold the line loop. -/
def process_text_block (ctx : Ctx) (page : Page) (page_num : Nat)
    (page_rect : Rect) (sp : St × List (String × Rect)) (lines : List Line) :
    St × List (String × Rect) :=
  lines.foldl (process_line ctx page page_num page_rect) sp

/-- The per-image body of `_extract_page_images`. -/
def page_image_step (ctx : Ctx) (page : Page) (page_num : Nat) (st : St)
    (img : PageImg) : St :=
  match img.rects with
  | [] => st
  | img_rect :: _ =>
    if img_rect.width < 50 || img_rect.height < 50 then st
    else
      match img.extracted with
      | none => st
      | some de =>
        let mime :=
          if de.2 == "png" then "image/png"
          else if de.2 == "jpg" then "image/jpeg"
          else if de.2 == "jpeg" then "image/jpeg"
          else if de.2 == "gif" then "image/gif"
          else "image/png"
        let iid := generate_image_id ctx.si st.imgCtr
        let bbox := BoundingBox.from_rect img_rect page.rect
        let st1 :=
          { st with
            images := dictInsert st.images iid ⟨iid, de.1, mime, page_num, bbox⟩
            imgCtr := st.imgCtr + 1 }
        let caption := find_figure_caption page img_rect
        let fno :=
          match caption with
          | some c => extract_figure_number c
          | none => none
        { st1 with
          blocksRev := CBlock.figure (generate_block_id ctx.sb st1.blkCtr)
            ⟨page_num, some bbox, none, none⟩ iid caption fno :: st1.blocksRev
          blkCtr := st1.blkCtr + 1 }

/-- `_extract_page` (extraction.py): images first, then the text blocks
(image-type blocks of the text dict are skipped), then the final
paragraph flush. -/
def extract_page (ctx : Ctx) (st : St) (pn_page : Nat × Page) : St :=
  let page := pn_page.2
  let page_num := pn_page.1
  let page_rect := page.rect
  let st1 := page.images.foldl (page_image_step ctx page page_num) st
  let sp := page.blocks.foldl
    (fun sp b =>
      match b with
      | PBlock.textB _ lines => process_text_block ctx page page_num page_rect sp lines
      | PBlock.imageB _ => sp)
    (st1, ([] : List (String × Rect)))
  flush_paragraph ctx page_num page_rect sp.2 sp.1

/-- Insertion sort (ascending); `list.sort()` on the collected sizes.  The
median only depends on the sorted sequence, which is unique. -/
def insertSorted (x : ℚ) : List ℚ → List ℚ
  | [] => [x]
  | y :: t => if x ≤ y then x :: y :: t else y :: insertSorted x t

def isort (l : List ℚ) : List ℚ := l.foldr insertSorted []

/-- `_collect_font_stats` (extraction.py): median of all positive span
sizes in text blocks, default 12.0 for an empty corpus. -/
def collect_font_stats (d : Doc) : ℚ :=
  let sizes :=
    ((d.pages.map (fun p =>
        (p.blocks.map (fun b =>
          match b with
          | PBlock.textB _ lines =>
            ((lines.map (fun ln => (ln.spans.map Span.size).filter (fun s => 0 < s))).flatten)
          | PBlock.imageB _ => [])).flatten)).flatten)
  match sizes with
  | [] => 12
  | _ => (isort sizes).getD (sizes.length / 2) 12

/-- `_build_outline` (extraction.py). -/
def build_outline (blocks : List CBlock) : List OutlineItem :=
  blocks.filterMap (fun b =>
    match b with
    | CBlock.heading i src level content =>
      some ⟨content, (level : Int), i, (src.page : Int)⟩
    | _ => none)

/-- The per-block match of `_find_heading_block`: same page and the
lowercased stripped content equals, or the lowercased content contains,
the lowercased stripped title. -/
def heading_title_match (title_lower : String) (page : Int) (b : CBlock) : Bool :=
  match b with
  | CBlock.heading _ src _ content =>
    ((src.page : Int) == page) &&
      (PyStr.strip (PyStr.lower content) == title_lower ||
       PyStr.containsS (PyStr.lower content) title_lower)
  | _ => false

/-- `_find_heading_block` (extraction.py). -/
def find_heading_block (blocks : List CBlock) (title : String) (page : Int) :
    Option String :=
  let title_lower := PyStr.strip (PyStr.lower title)
  match blocks.find? (heading_title_match title_lower page) with
  | some b => some b.id
  | none => (blocks.find? (fun b => (b.source.page : Int) == page)).map CBlock.id

/-- `_extract_toc` (extraction.py): the built-in TOC supersedes the
heading-derived outline only when it is nonempty and strictly longer. -/
def extract_toc (d : Doc) (blocks : List CBlock) (outline : List OutlineItem) :
    List OutlineItem :=
  if d.toc.isEmpty || d.toc.length ≤ outline.length then outline
  else
    let new_outline := d.toc.map (fun t =>
      OutlineItem.mk (PyStr.strip t.title) t.level
        ((find_heading_block blocks t.title (t.page - 1)).getD "") (t.page - 1))
    if new_outline.isEmpty then outline else new_outline

/-- `_extract_metadata` (extraction.py). -/
def extract_metadata (d : Doc) : List (String × String) :=
  match d.metadata with
  | none => []
  | some m =>
    [("title", m.title), ("author", m.author), ("subject", m.subject),
     ("keywords", m.keywords), ("creator", m.creator)]

/-- `PDFExtractor.extract`: `none` models a document the source cannot
open (`fitz.open` raised); the `except` branch returns the empty
`ExtractionResult`. -/
def extract (doc : Option Doc) (sb si : Nat → String) : ExtractionResult :=
  match doc with
  | none => ⟨[], [], [], [], "", 0⟩
  | some d =>
    let ctx : Ctx := ⟨sb, si, collect_font_stats d⟩
    let st := d.pages.enum.foldl (extract_page ctx) initSt
    let blocks := st.blocksRev.reverse
    let outline0 := build_outline blocks
    { blocks := blocks
      outline := extract_toc d blocks outline0
      images := st.images.map (fun kv => (kv.1, ⟨kv.2.id, kv.2.page, kv.2.mime_type, kv.2.bbox⟩))
      metadata := extract_metadata d
      plain_text := joinSep "\n\n" st.ptpRev.reverse
      page_count := d.pages.length }

end Extraction

namespace Services

/-- `MATH_FONTS` (services.py; smaller than the extraction.py set). -/
def MATH_FONTS : List String :=
  ["cmmi", "cmsy", "cmex", "msam", "msbm",
   "symbol", "mt extra",
   "stix", "cambria math", "asana",
   "latinmodern", "euler"]

/-- `MATH_CHAR_RANGES` (services.py; no superscripts/subscripts block). -/
def MATH_CHAR_RANGES : List (Nat × Nat) :=
  [(0x0370, 0x03FF), (0x2200, 0x22FF), (0x2100, 0x214F), (0x2190, 0x21FF),
   (0x27C0, 0x27EF), (0x2980, 0x29FF), (0x2A00, 0x2AFF), (0x1D400, 0x1D7FF)]

/-- `is_math_char` (services.py). -/
def is_math_char (c : Char) : Bool :=
  MATH_CHAR_RANGES.any (fun r => r.1 ≤ c.toNat && c.toNat ≤ r.2)

/-- `is_math_font` (services.py). -/
def is_math_font (font_name : String) : Bool :=
  MATH_FONTS.any (fun mf => PyStr.containsS (PyStr.lower font_name) mf)

/-- One span of the services text dict. -/
structure SSpan where
  text : String
  font : String
  size : ℚ
  flags : Nat

/-- One line of a services text block. -/
structure SLine where
  spans : List SSpan

/-- A block of `page.get_text("dict")["blocks"]` for services.py: type 0
(text) or type 1 (image, carrying its optional bbox and the result of the
pixmap rasterisation used by `extract_image_block`; `none` = failure). -/
inductive SBlock where
  | textB (lines : List SLine)
  | imageB (bbox : Option Extraction.Rect) (raster : Option (List Nat))

structure SPage where
  blocks : List SBlock

structure SMeta where
  title : String
  author : String
  subject : String

structure SDoc where
  pages : List SPage
  metadata : Option SMeta

/-- The structured-content block dicts produced by services.py.  The
`image_base64` field of a figure is modelled by the raw PNG bytes (base64
encoding is an injection and carries no logic); `caption` and
`figure_number` of a figure are always `None` in the code. -/
inductive SOut where
  | heading (level : Nat) (content : String) (id : String)
  | mathBlock (latex : Option String) (alt : String)
  | mathInline (latex : Option String) (alt : String)
  | listOut (ordered : Bool) (items : List String)
  | textOut (content : String)
  | figureOut (image : List Nat)
  | references (items : List (Option String × String))
deriving DecidableEq

/-- `common_sections` (services.py `detect_heading`). -/
def common_sections : List String :=
  ["abstract", "introduction", "background", "related work",
   "methods", "methodology", "materials and methods",
   "results", "discussion", "conclusion", "conclusions",
   "acknowledgments", "acknowledgements", "references",
   "bibliography", "appendix", "supplementary"]

/-- The numbered-section regex of services.py `detect_heading`:
`^(\d+\.(?:\d+\.)*)\s*(.+)$`.  The repetition is greedy with
backtracking: when the maximal run of `\d+.` groups consumes the whole
line, the regex gives back one group so that `(.+)` is nonempty (checked
against CPython `re`).  Returns the dot count of the matched group. -/
def detectNumLevel (l : List Char) : Option Nat :=
  let p := Extraction.numDotStar l
  if p.1 = 0 then none
  else if !p.2.isEmpty then some p.1
  else if 2 ≤ p.1 then some (p.1 - 1)
  else none

/-- `detect_heading` (services.py): returns `(is_heading, level)`. -/
def detect_heading (text : String) (font_size : ℚ) (flags : Nat)
    (_page_num : Nat) : Bool × Nat :=
  let ts := PyStr.strip text
  if ts.length > 100 then (false, 0)
  else
    match detectNumLevel ts.data with
    | some dots => (true, min dots 4)
    | none =>
      let tl := PyStr.lower ts
      if common_sections.contains tl ||
         common_sections.any (fun s => s.data.isPrefixOf tl.data) then (true, 1)
      else if (flags &&& 16 != 0) && 11 ≤ font_size && ts.length < 60 then
        if 14 ≤ font_size then (true, 1)
        else if 12 ≤ font_size then (true, 2)
        else (true, 3)
      else if PyStr.pyIsUpper ts && 3 < ts.length && ts.length < 50 then (true, 1)
      else (false, 0)

/-- The `substitutions` list of `try_convert_to_latex` (services.py),
in order; unlike extraction.py no trailing space is appended. -/
def SUBSTITUTIONS : List (String × String) :=
  [("α", "\\alpha"), ("β", "\\beta"), ("γ", "\\gamma"), ("δ", "\\delta"),
   ("ε", "\\epsilon"), ("ζ", "\\zeta"), ("η", "\\eta"), ("θ", "\\theta"),
   ("ι", "\\iota"), ("κ", "\\kappa"), ("λ", "\\lambda"), ("μ", "\\mu"),
   ("ν", "\\nu"), ("ξ", "\\xi"), ("π", "\\pi"), ("ρ", "\\rho"),
   ("σ", "\\sigma"), ("τ", "\\tau"), ("υ", "\\upsilon"), ("φ", "\\phi"),
   ("χ", "\\chi"), ("ψ", "\\psi"), ("ω", "\\omega"),
   ("Γ", "\\Gamma"), ("Δ", "\\Delta"), ("Θ", "\\Theta"), ("Λ", "\\Lambda"),
   ("Ξ", "\\Xi"), ("Π", "\\Pi"), ("Σ", "\\Sigma"), ("Φ", "\\Phi"),
   ("Ψ", "\\Psi"), ("Ω", "\\Omega"),
   ("∑", "\\sum"), ("∏", "\\prod"), ("∫", "\\int"),
   ("√", "\\sqrt"), ("∞", "\\infty"), ("∂", "\\partial"),
   ("∇", "\\nabla"), ("±", "\\pm"), ("×", "\\times"),
   ("÷", "\\div"), ("≤", "\\leq"), ("≥", "\\geq"),
   ("≠", "\\neq"), ("≈", "\\approx"), ("∈", "\\in"),
   ("∉", "\\notin"), ("⊂", "\\subset"), ("⊃", "\\supset"),
   ("∪", "\\cup"), ("∩", "\\cap"), ("∧", "\\land"),
   ("∨", "\\lor"), ("¬", "\\neg"), ("→", "\\rightarrow"),
   ("←", "\\leftarrow"), ("↔", "\\leftrightarrow"),
   ("⇒", "\\Rightarrow"), ("⇐", "\\Leftarrow"),
   ("∀", "\\forall"), ("∃", "\\exists"),
   ("ℝ", "\\mathbb\x7bR\x7d"), ("ℕ", "\\mathbb\x7bN\x7d"),
   ("ℤ", "\\mathbb\x7bZ\x7d"), ("ℂ", "\\mathbb\x7bC\x7d"),
   ("′", "\x27"), ("″", "\x27\x27")]

/-- `try_convert_to_latex` (services.py). -/
def try_convert_to_latex (text : String) : Option String :=
  if text.data.isEmpty then none
  else
    let l1 := SUBSTITUTIONS.foldl (fun s p => Extraction.replaceAll s p.1 p.2) text
    let l2 := Extraction.fracSub l1
    let l3 := Extraction.supDigit '^' l2
    let l4 := Extraction.supWord '_' l3
    if l4 == text then none else some l4

/-- The equation-number regex `^\s*\(\d+\)\s*$` of `is_display_math`. -/
def eqNumPattern (text : String) : Bool :=
  match text.data.dropWhile PyStr.isWs with
  | '(' :: r =>
    let ds := r.takeWhile Char.isDigit
    !ds.isEmpty &&
      (match r.drop ds.length with
       | ')' :: r2 => (r2.dropWhile PyStr.isWs).isEmpty
       | _ => false)
  | _ => false

/-- `is_display_math` (services.py). -/
def is_display_math (text : String) : Bool :=
  (PyStr.strip text).length > 50 ||
  eqNumPattern text ||
  ["∑", "∏", "∫", "="].any (fun s => PyStr.containsS text s)

/-- `is_list_item` (services.py); bullet class `[•·●○]`. -/
def is_list_item (text : String) : Bool :=
  Extraction.matchCharWs ['•', '·', '●', '○'] text.data ||
  Extraction.matchCharWs Extraction.dashChars text.data ||
  Extraction.matchNumMark text.data ||
  Extraction.matchAlphaMark text.data ||
  Extraction.matchParenMark text.data

/-- `clean_list_item` (services.py); marker class `[•·●○\-–—]`. -/
def clean_list_item (text : String) : String :=
  match Extraction.markerAlt (['•', '·', '●', '○'] ++ Extraction.dashChars)
      (text.data.dropWhile PyStr.isWs) with
  | some rest => ⟨rest.dropWhile PyStr.isWs⟩
  | none => text

/-- Regex `^\d+\.` (the `ordered` test of `process_text_block`). -/
def startsNumDot (text : String) : Bool :=
  let ds := text.data.takeWhile Char.isDigit
  !ds.isEmpty &&
    (match text.data.drop ds.length with
     | c :: _ => c == '.'
     | [] => false)

/-- Aggregate span statistics of one services line:
`(line_text, total_chars, math_chars, max_font_size, font_flags)`.
A math-font span counts all its characters as mathematical; otherwise
characters are tested individually. -/
def line_stats (line : SLine) : String × Nat × Nat × ℚ × Nat :=
  line.spans.foldl
    (fun acc s =>
      (acc.1 ++ s.text,
       acc.2.1 + s.text.length,
       acc.2.2.1 +
         (if is_math_font s.font then s.text.length
          else (s.text.data.filter is_math_char).length),
       max acc.2.2.2.1 s.size,
       acc.2.2.2.2 ||| s.flags))
    ("", 0, 0, 0, 0)

/-- `process_text_block` (services.py): classify each line as heading,
math (ratio strictly above 0.3), list item or text.  Note that unlike
extraction.py the heading test comes first. -/
def process_text_block (lines : List SLine) (page_num : Nat) : List SOut :=
  lines.foldl
    (fun results line =>
      let stats := line_stats line
      let lt := PyStr.strip stats.1
      if lt.data.isEmpty then results
      else
        let total := stats.2.1
        let math_chars := stats.2.2.1
        let dh := detect_heading lt stats.2.2.2.1 stats.2.2.2.2 page_num
        if dh.1 then
          results ++ [SOut.heading dh.2 lt
            ("heading-" ++ toString page_num ++ "-" ++ toString results.length)]
        else if 0 < total && qDiv (math_chars : ℚ) (total : ℚ) > Rat.divInt 3 10 then
          let latex := try_convert_to_latex lt
          if is_display_math lt then results ++ [SOut.mathBlock latex lt]
          else results ++ [SOut.mathInline latex lt]
        else if is_list_item lt then
          results ++ [SOut.listOut (startsNumDot lt) [clean_list_item lt]]
        else results ++ [SOut.textOut lt])
    []

/-- The reference-entry regex `^\[?(\d+)\]?\s*(.+)$` of
`extract_structured_content`, with full CPython backtracking: `\s*` gives
back characters first, then `\]?`, then `(\d+)` (checked against `re`).
Returns `(number, text)`; no match yields `(none, content)`. -/
def refTrySpaces (v : List Char) : Option (List Char) :=
  let r := v.dropWhile PyStr.isWs
  if !r.isEmpty then some r
  else
    match v.getLast? with
    | some c => some [c]
    | none => none

def refAfterNum (t : List Char) : Option (List Char) :=
  match t with
  | ']' :: u => (refTrySpaces u).orElse (fun _ => refTrySpaces t)
  | _ => refTrySpaces t

def refShrink (dsRev : List Char) (rest : List Char) : Option (String × String) :=
  match dsRev with
  | [] => none
  | d :: dsRev2 =>
    match refAfterNum rest with
    | some txt => some (⟨(d :: dsRev2).reverse⟩, ⟨txt⟩)
    | none => refShrink dsRev2 (d :: rest)

def refMatch (content : String) : Option String × String :=
  let l := content.data
  let core : Option (String × String) :=
    match l with
    | '[' :: r =>
      let ds := r.takeWhile Char.isDigit
      if ds.isEmpty then none else refShrink ds.reverse (r.drop ds.length)
    | _ =>
      let ds := l.takeWhile Char.isDigit
      if ds.isEmpty then none else refShrink ds.reverse (l.drop ds.length)
  match core with
  | some p => (some p.1, p.2)
  | none => (none, content)

/-- `is_new_paragraph` (services.py). -/
def is_new_paragraph (text : String) (current : List String) : Bool :=
  if current.isEmpty then true
  else
    ((match current.getLast? with
      | some lastP =>
        match (PyStr.rstripL lastP.data).getLast? with
        | some c => ['.', '!', '?', ':'].contains c
        | none => false
      | none => false) &&
     (match text.data with
      | c :: _ => PyStr.isCasedUpper c
      | [] => false)) ||
    (current.length == 1 && (current.headD "").length < 30)

/-- `extract_image_block` (services.py): skip a missing bbox, skip small
images, `none` on a rasterisation failure. -/
def extract_image_block (bbox : Option Extraction.Rect)
    (raster : Option (List Nat)) : Option SOut :=
  match bbox with
  | none => none
  | some b =>
    if b.width < 50 || b.height < 50 then none
    else
      match raster with
      | some bytes => some (SOut.figureOut bytes)
      | none => none

/-- `LIGATURE_MAP` of `clean_extracted_text` (services.py), in insertion
order; as in extraction.py, the mangled smart-quote line contributes the
identity double-quote entry and the seven-character colon-quote key. -/
def LIGATURE_MAP : List (String × String) :=
  [("ﬁ", "fi"), ("ﬂ", "fl"), ("ﬀ", "ff"), ("ﬃ", "ffi"), ("ﬄ", "ffl"),
   ("ﬅ", "st"), ("ﬆ", "st"),
   ("−", "-"), ("–", "-"), ("—", "-"),
   ("\"", "\""), (": \"\x27\", ", "\x27"),
   ("…", "..."), ("\u00ad", ""), ("\u200b", ""), ("\ufeff", "")]

/-- Regex `re.sub(r'(\w+)-\s*\n\s*(\w+)', r'\1\2', text)`: join a
hyphenation across a line break (the whitespace run must contain a
newline). -/
def hyphenNlF : Nat → List Char → List Char
  | _, [] => []
  | 0, l => l
  | fuel + 1, c :: rest =>
    if PyStr.isWord c then
      let w1 := (c :: rest).takeWhile PyStr.isWord
      match (c :: rest).drop w1.length with
      | '-' :: r2 =>
        let ws := r2.takeWhile PyStr.isWs
        if ws.contains '\n' then
          let r3 := r2.drop ws.length
          let w2 := r3.takeWhile PyStr.isWord
          if w2.isEmpty then c :: hyphenNlF fuel rest
          else (w1 ++ w2) ++ hyphenNlF fuel (r3.drop w2.length)
        else c :: hyphenNlF fuel rest
      | _ => c :: hyphenNlF fuel rest
    else c :: hyphenNlF fuel rest

/-- Regex `re.sub(r'\.([A-Z][a-z])', r'. \1', text)`: insert a space
after a full stop directly followed by a capitalised word. -/
def dotSpaceUpperF : Nat → List Char → List Char
  | _, [] => []
  | 0, l => l
  | fuel + 1, '.' :: a :: b :: rest =>
    if a.isUpper && b.isLower then ('.' :: ' ' :: a :: [b]) ++ dotSpaceUpperF fuel rest
    else '.' :: dotSpaceUpperF fuel (a :: b :: rest)
  | _ + 1, [c] => [c]
  | _ + 1, [c, d] => [c, d]
  | fuel + 1, c :: rest => c :: dotSpaceUpperF fuel rest

/-- Regex `re.sub(r'\n{3,}', '\n\n', text)`: a newline is dropped while
followed by two more. -/
def collapseNl3 : List Char → List Char
  | [] => []
  | [c] => [c]
  | [c, d] => [c, d]
  | c :: d :: e :: rest =>
    if c == '\n' && d == '\n' && e == '\n' then collapseNl3 (d :: e :: rest)
    else c :: collapseNl3 (d :: e :: rest)

/-- `clean_extracted_text` (services.py). -/
def clean_extracted_text (text : String) : String :=
  if text.data.isEmpty then ""
  else
    let t := LIGATURE_MAP.foldl (fun s p => Extraction.replaceAll s p.1 p.2) text
    let t2 : String := ⟨hyphenNlF t.data.length t.data⟩
    let t3 : String := ⟨dotSpaceUpperF t2.data.length t2.data⟩
    let t4 : String := ⟨Extraction.collapseSpaces t3.data⟩
    let t5 : String := ⟨collapseNl3 t4.data⟩
    PyStr.strip ⟨Extraction.dropWsBeforePunct t5.data⟩

/-- The merge accumulator of `post_process_blocks`:
nothing pending, a list group, or a text group. -/
inductive Pending where
  | noneP
  | listP (ordered : Bool) (items : List String)
  | textP (content : String)
deriving DecidableEq

/-- Emit a pending group: a finished text group is cleaned and dropped
when blank, mirroring the tail of the text branch of the while loop. -/
def pendingOut : Pending → List SOut
  | .noneP => []
  | .listP o items => [SOut.listOut o items]
  | .textP c =>
    let c2 := clean_extracted_text c
    if (PyStr.strip c2).data.isEmpty then [] else [SOut.textOut c2]

/-- `content.endswith(('.', '!', '?', ':'))`. -/
def terminalEnd (s : String) : Bool :=
  match s.data.getLast? with
  | some c => ['.', '!', '?', ':'].contains c
  | none => false

/-- One step of `post_process_blocks`, as a state machine equivalent to
the index-jumping while loop: a pending list group absorbs subsequent
list blocks of the same ordering kind; a pending text group absorbs
subsequent text blocks while its accumulated content does not end in
terminal punctuation; any other block flushes the group. -/
def ppStep (s : List SOut × Pending) (b : SOut) : List SOut × Pending :=
  match b, s.2 with
  | SOut.listOut o items, Pending.listP o2 its =>
    if o == o2 then (s.1, Pending.listP o2 (its ++ items))
    else (s.1 ++ pendingOut (Pending.listP o2 its), Pending.listP o items)
  | SOut.listOut o items, p => (s.1 ++ pendingOut p, Pending.listP o items)
  | SOut.textOut c, Pending.textP acc =>
    if terminalEnd acc then (s.1 ++ pendingOut (Pending.textP acc), Pending.textP c)
    else (s.1, Pending.textP (acc ++ " " ++ c))
  | SOut.textOut c, p => (s.1 ++ pendingOut p, Pending.textP c)
  | b, p => (s.1 ++ pendingOut p ++ [b], Pending.noneP)

/-- `post_process_blocks` (services.py). -/
def post_process_blocks (blocks : List SOut) : List SOut :=
  let s := blocks.foldl ppStep ([], Pending.noneP)
  s.1 ++ pendingOut s.2

/-- Assembler state of `extract_structured_content`: emitted blocks,
the open paragraph, the references flag and the collected entries. -/
structure AState where
  blocks : List SOut
  para : List String
  inRefs : Bool
  refs : List (Option String × String)
deriving DecidableEq

/-- Flush the current paragraph (`" ".join(current_paragraph)`). -/
def flushPara (st : AState) : AState :=
  if st.para.isEmpty then st
  else
    { st with
      blocks := st.blocks ++ [SOut.textOut (joinSep " " st.para)]
      para := [] }

def refHeadingNames : List String := ["references", "bibliography", "citations"]

/-- The per-item body of the assembly loop of `extract_structured_content`. -/
def procItem (st : AState) (item : SOut) : AState :=
  match item with
  | SOut.heading lvl content i =>
    let st1 :=
      if refHeadingNames.any (fun r => PyStr.containsS (PyStr.lower content) r) then
        { (flushPara st) with inRefs := true }
      else st
    { st1 with blocks := st1.blocks ++ [SOut.heading lvl content i] }
  | SOut.textOut content =>
    if st.inRefs then { st with refs := st.refs ++ [refMatch content] }
    else
      let c := PyStr.strip content
      if c.data.isEmpty then st
      else if is_new_paragraph c st.para then
        { (flushPara st) with para := [c] }
      else { st with para := st.para ++ [c] }
  | SOut.mathBlock a b => { (flushPara st) with blocks := (flushPara st).blocks ++ [SOut.mathBlock a b] }
  | SOut.mathInline a b => { (flushPara st) with blocks := (flushPara st).blocks ++ [SOut.mathInline a b] }
  | other => { (flushPara st) with blocks := (flushPara st).blocks ++ [other] }

/-- `extract_structured_content` (services.py): returns the block list
and the metadata pairs. -/
def extract_structured_content (doc : SDoc) : List SOut × List (String × String) :=
  let metadata :=
    match doc.metadata with
    | none => []
    | some m => [("title", m.title), ("author", m.author), ("subject", m.subject)]
  let st := doc.pages.enum.foldl
    (fun st pn =>
      pn.2.blocks.foldl
        (fun st b =>
          match b with
          | SBlock.textB lines => (process_text_block lines pn.1).foldl procItem st
          | SBlock.imageB bbox raster =>
            match extract_image_block bbox raster with
            | some fig => { (flushPara st) with blocks := (flushPara st).blocks ++ [fig] }
            | none => st)
        st)
    (AState.mk [] [] false [])
  let st1 := flushPara st
  let blocks2 :=
    if st1.refs.isEmpty then st1.blocks
    else st1.blocks ++ [SOut.references st1.refs]
  (post_process_blocks blocks2, metadata)

end Services

namespace Extraction

/-- Erase the freshly generated uuid-based identifiers from a block:
block ids become the empty string and referenced image ids are blanked
(`none` is kept, recording that the math rasterisation failed). -/
def eraseBlock : CBlock → CBlock
  | .heading _ src lvl c => .heading "" src lvl c
  | .text _ src c => .text "" src c
  | .math _ src latex iid alt d => .math "" src latex (iid.map (fun _ => "")) alt d
  | .figure _ src _ cap no => .figure "" src "" cap no
  | .listB _ src items o => .listB "" src items o

def eraseOutline (o : OutlineItem) : OutlineItem := { o with block_id := "" }

def eraseResImage (v : ResImage) : ResImage := { v with id := "" }

def eraseImgV (v : ExtractedImage) : ExtractedImage := { v with id := "" }

/-- Erase every generated identifier from an `ExtractionResult`, keeping
everything else (contents, source locations, outline titles, image bytes
metadata, plain text, page count). -/
def eraseIds (r : ExtractionResult) : ExtractionResult :=
  { r with
    blocks := r.blocks.map eraseBlock
    outline := r.outline.map eraseOutline
    images := r.images.map (fun kv => ("", eraseResImage kv.2)) }

/-- The image-dict keys generated by the first `n` draws of the image-id
stream. -/
def imgKeys (si : Nat → String) (n : Nat) : List String :=
  (List.range n).map (fun j => "img_" ++ si j)

/-- The relation between the extractor states of two runs on the same
document with different uuid streams: the states agree after id erasure,
and each image dict has exactly the keys generated so far (in order). -/
structure Rel (si1 si2 : Nat → String) (s1 s2 : St) : Prop where
  blocks : s1.blocksRev.map eraseBlock = s2.blocksRev.map eraseBlock
  imgs : s1.images.map (fun kv => eraseImgV kv.2) = s2.images.map (fun kv => eraseImgV kv.2)
  ptp : s1.ptpRev = s2.ptpRev
  off : s1.charOffset = s2.charOffset
  bc : s1.blkCtr = s2.blkCtr
  ic : s1.imgCtr = s2.imgCtr
  k1 : s1.images.map Prod.fst = imgKeys si1 s1.imgCtr
  k2 : s2.images.map Prod.fst = imgKeys si2 s2.imgCtr

/-- The line classification as performed inside `_process_text_block`. -/
def classify_of_line (median : ℚ) (pg : Nat) (line : Line) : String :=
  classify_line median (PyStr.strip (line_text line)) (line_max_font line)
    (line_is_bold line) (line_math_ratio line) pg

end Extraction

namespace Spec

/-- The character-offset ranges of the blocks that carry both offsets, in
document order. -/
def charRanges (bs : List Extraction.CBlock) : List (Nat × Nat) :=
  bs.filterMap (fun b =>
    match b.source.char_start, b.source.char_end with
    | some s, some e => some (s, e)
    | _, _ => none)

/-- Adjacent ranges are non-overlapping: each end is at most the next
start. -/
def chainOk : List (Nat × Nat) → Bool
  | [] => true
  | [_] => true
  | a :: b :: r => decide (a.2 ≤ b.1) && chainOk (b :: r)

/-- The offset invariant claimed by the spec: `char_start ≤ char_end`
within each block and `char_end ≤ char_start` across adjacent blocks
carrying offsets. -/
def offsetsOk (bs : List Extraction.CBlock) : Bool :=
  (charRanges bs).all (fun p => decide (p.1 ≤ p.2)) && chainOk (charRanges bs)

/-- Modelled from the spec wording of the numbered-section rule: the
pattern `\d+(\.\d+)*` matched at the start of the line, with level equal
to its dot count plus one, capped at 6. -/
def specDotsF : Nat → List Char → Nat
  | 0, _ => 0
  | fuel + 1, l =>
    match l with
    | '.' :: r =>
      let ds := r.takeWhile Char.isDigit
      if ds.isEmpty then 0 else 1 + specDotsF fuel (r.drop ds.length)
    | _ => 0

def specNumberedLevel (text : String) : Option Nat :=
  let l := text.data
  let ds := l.takeWhile Char.isDigit
  if ds.isEmpty then none
  else some (min (specDotsF l.length (l.drop ds.length) + 1) 6)

/-- Modelled from the spec wording of the display-math rule: longer than
20 characters, or containing an equals sign, or containing a summation,
product or integral symbol. -/
def specDisplay (text : String) : Bool :=
  (PyStr.strip text).length > 20 || text.data.contains '=' ||
  text.data.contains '∑' || text.data.contains '∏' || text.data.contains '∫'

/-- The display flag actually computed by `_extract_math_block`, as a
function of the block's own `alt_text`. -/
def displayConsistent : Extraction.CBlock → Bool
  | .math _ _ _ _ alt d => d == ((PyStr.strip alt).length > 20 || alt.data.contains '=')
  | _ => true

/-- Image-reference integrity of a block against a key list. -/
def blockImgOk (keys : List String) : Extraction.CBlock → Bool
  | .figure _ _ iid _ _ => keys.contains iid
  | .math _ _ _ (some iid) _ _ => keys.contains iid
  | _ => true

/-- Number of `references` blocks in a services block list. -/
def refsCount (bs : List Services.SOut) : Nat :=
  bs.countP (fun b =>
    match b with
    | Services.SOut.references _ => true
    | _ => false)

/-- No `references` block occurs. -/
def refsFree (bs : List Services.SOut) : Bool :=
  bs.all (fun b =>
    match b with
    | Services.SOut.references _ => false
    | _ => true)

end Spec

namespace Inputs

open Extraction

def mkSpan (t : String) : Span := ⟨t, "Times-Roman", 12, 0⟩

def mkLine (t : String) : Line := ⟨⟨10, 10, 100, 20⟩, [mkSpan t]⟩

def pageRect0 : Rect := ⟨0, 0, 612, 792⟩

def noRaster : Rect → Option (List Nat) := fun _ => none

def noClip : Rect → String := fun _ => ""

def mkPage (ls : List String) : Page :=
  ⟨pageRect0, [PBlock.textB ⟨0, 0, 612, 792⟩ (ls.map mkLine)], [], noRaster, noClip⟩

def emptyPage : Page := ⟨pageRect0, [], [], noRaster, noClip⟩

def sA : Nat → String := fun _ => "aaaa"

def sB : Nat → String := fun _ => "bbbb"

def sInj : Nat → String := fun n => ⟨List.replicate n 'a'⟩

def D1 : Doc := ⟨[mkPage ["Hello world."]], [], none⟩

def D2 : Doc := ⟨[mkPage ["1. item one", "This is text."]], [], none⟩

def D8 : Doc := ⟨[mkPage ["∑∏∫"]], [], none⟩

def D9 : Doc := ⟨[mkPage ["infor-", "mation theory"]], [], none⟩

def D7 : Doc :=
  ⟨[mkPage ["Introduction"], emptyPage], [⟨1, "Intro", 1⟩, ⟨1, "Missing", 2⟩], none⟩

def D7w : Doc :=
  ⟨[mkPage ["Introduction"], mkPage ["Some body text here."]],
   [⟨1, "Intro", 1⟩, ⟨1, "Other", 2⟩], none⟩

def imgPage : Page :=
  ⟨pageRect0, [], [⟨[⟨0, 0, 100, 100⟩], some ([7, 7], "png")⟩], noRaster, noClip⟩

def D10 : Doc := ⟨[imgPage, mkPage ["∑∏∫"]], [], none⟩

def lineBoundary : Line := mkLine "αβxyz"

def lineAbove : Line := mkLine "αβγxy"

def lineBulletMath : Line := mkLine "• αβγδ"

def mkSLine (t : String) : Services.SLine := ⟨[⟨t, "Times-Roman", 12, 0⟩]⟩

def D6 : Services.SDoc :=
  ⟨[⟨[Services.SBlock.textB
      [mkSLine "References", mkSLine "[1] Smith, J. (2020).",
       mkSLine "Second entry without brackets"]]⟩], none⟩

end Inputs

namespace Spec

/-- Invariant carried through the extractor state: every emitted block
references only images present in the image dict, and every math block's
display flag is the stated function of its own alt text. -/
def stateBlocksOk (st : Extraction.St) : Prop :=
  ∀ b ∈ st.blocksRev,
    blockImgOk (st.images.map Prod.fst) b = true ∧ displayConsistent b = true

end Spec

/-! Theorems.  First the lemmas connecting the kernel-computable rational
wrappers to the standard `ℚ` operations. -/

theorem qNum_mul_den (a : ℚ) : (a.num : ℚ) = a * a.den := by
  have ha : ((a.den : ℚ)) ≠ 0 := by exact_mod_cast a.den_nz
  have h := Rat.num_div_den a
  rw [div_eq_iff ha] at h
  exact h

theorem qAdd_eq (a b : ℚ) : qAdd a b = a + b := by
  have ha : ((a.den : ℚ)) ≠ 0 := by exact_mod_cast a.den_nz
  have hb : ((b.den : ℚ)) ≠ 0 := by exact_mod_cast b.den_nz
  rw [qAdd, Rat.divInt_eq_div]
  push_cast
  field_simp
  rw [qNum_mul_den a, qNum_mul_den b]
  ring

theorem qSub_eq (a b : ℚ) : qSub a b = a - b := by
  have ha : ((a.den : ℚ)) ≠ 0 := by exact_mod_cast a.den_nz
  have hb : ((b.den : ℚ)) ≠ 0 := by exact_mod_cast b.den_nz
  rw [qSub, Rat.divInt_eq_div]
  push_cast
  field_simp
  rw [qNum_mul_den a, qNum_mul_den b]
  ring

theorem qMul_eq (a b : ℚ) : qMul a b = a * b := by
  have ha : ((a.den : ℚ)) ≠ 0 := by exact_mod_cast a.den_nz
  have hb : ((b.den : ℚ)) ≠ 0 := by exact_mod_cast b.den_nz
  rw [qMul, Rat.divInt_eq_div]
  push_cast
  field_simp
  rw [qNum_mul_den a, qNum_mul_den b]
  ring

theorem qDiv_eq (a b : ℚ) : qDiv a b = a / b := by
  rcases eq_or_ne b 0 with hb0 | hb0
  · subst hb0
    simp [qDiv, Rat.divInt_eq_div]
  · have ha : ((a.den : ℚ)) ≠ 0 := by exact_mod_cast a.den_nz
    have hb : ((b.den : ℚ)) ≠ 0 := by exact_mod_cast b.den_nz
    have hbn : ((b.num : ℚ)) ≠ 0 := by
      rw [qNum_mul_den b]
      exact mul_ne_zero hb0 hb
    rw [qDiv, Rat.divInt_eq_div]
    push_cast
    field_simp
    rw [qNum_mul_den a, qNum_mul_den b]
    ring

theorem divInt_two_five : Rat.divInt 2 5 = (2/5 : ℚ) := by
  rw [Rat.divInt_eq_div]
  norm_num

/-- C3 counterexample: the claim says a source-unavailable run surfaces
the error and returns no empty-substitute result; the code's `except`
branch returns exactly the empty `ExtractionResult` (blocks, outline,
images and metadata empty, empty plain text, page count 0). -/
theorem C3_counterexample :
    Extraction.extract none Inputs.sA Inputs.sA =
      ⟨[], [], [], [], "", 0⟩ := rfl

/-- C3 (amended): when the document cannot be opened, `extract` swallows
the error and returns the empty `ExtractionResult`, for every uuid
stream; nothing is surfaced to the caller. -/
theorem C3_unavailable_returns_empty (sb si : Nat → String) :
    Extraction.extract none sb si = ⟨[], [], [], [], "", 0⟩ := rfl

/-- C2: evaluating the extractor on a page whose text is the list line
"1. item one" followed by the paragraph line "This is text." shows the
offset invariant broken: the list block gets `char_end = 11` (the raw
line length) while the plain-text offset only advances by the cleaned
item text plus two, so the next block starts at `char_start = 10 < 11`. -/
theorem C2_list_offset_overlap :
    ((Extraction.extract (some Inputs.D2) Inputs.sA Inputs.sA).blocks.map
        (fun b => (b.source.char_start, b.source.char_end)) =
      [(some 0, some 11), (some 10, some 23)]) ∧
    Spec.offsetsOk (Extraction.extract (some Inputs.D2) Inputs.sA Inputs.sA).blocks
      = false := by
  constructor <;> decide

/-- C1 counterexample: two runs of the engine on the same document with
different uuid draws produce different `ExtractionResult` values -- the
block ids differ -- so the result is not byte-identical across runs. -/
theorem C1_counterexample :
    Extraction.extract (some Inputs.D1) Inputs.sA Inputs.sA ≠
    Extraction.extract (some Inputs.D1) Inputs.sB Inputs.sA := by decide

/-- C7 counterexample: with a built-in TOC that is longer than the
heading outline and a TOC entry pointing at a page with no blocks, the
superseding outline contains an entry whose `block_id` is the empty
string, which is the id of no block in the result -- an unresolved
outline entry. -/
theorem C7_counterexample :
    ((Extraction.extract (some Inputs.D7) Inputs.sA Inputs.sA).outline.map
        (fun o => o.block_id) = ["blk_aaaa", ""]) ∧
    ((Extraction.extract (some Inputs.D7) Inputs.sA Inputs.sA).blocks.all
        (fun b => b.id != "") = true) := by
  constructor <;> decide

/-- C8 counterexample: the classified math line "∑∏∫" contains a
summation, product and integral symbol, so the claim flags it display;
the code (`len(text.strip()) > 20 or '=' in text`) emits it with
`display = false`. -/
theorem C8_counterexample :
    ((Extraction.extract (some Inputs.D8) Inputs.sA Inputs.sA).blocks.map
       (fun b =>
         match b with
         | Extraction.CBlock.math _ _ _ _ alt d => some (alt, d)
         | _ => none) = [some ("∑∏∫", false)]) ∧
    Spec.specDisplay "∑∏∫" = true := by
  constructor <;> decide

/-- C4 counterexample: "3.1. Overview" is classified as a heading (it
matches `SECTION_PATTERNS[0]`), the spec pattern `\d+(\.\d+)*` matches
"3.1" with one dot so the claim assigns level 2, but the code counts the
dots of the matched prefix "3.1." and assigns level 3. -/
theorem C4_counterexample :
    Extraction.classify_line 12 "3.1. Overview" 12 false 0 0 = "heading" ∧
    Spec.specNumberedLevel "3.1. Overview" = some 2 ∧
    Extraction.determine_heading_level 12 12 "3.1. Overview" = 3 := by
  refine ⟨by decide, by decide, by decide⟩

/-- C4 (amended): whenever the level regex `^(\d+\.(?:\d+\.)*)` matches
(at least one dot-terminated group), the assigned level is the dot count
of the matched prefix plus one, capped at 6, and it does not depend on
the font size -- the numbered pattern takes precedence over the size
heuristic.  "2.1 BACKGROUND" is classified a heading and its level is 2
for every font size and median. -/
theorem C4_numbered_level_amended :
    (∀ (median fs fs2 : ℚ) (text : String),
        (Extraction.numDotStar text.data).1 ≠ 0 →
        Extraction.determine_heading_level median fs text =
          min ((Extraction.numDotStar text.data).1 + 1) 6 ∧
        Extraction.determine_heading_level median fs2 text =
          Extraction.determine_heading_level median fs text) ∧
    Extraction.classify_line 100 "2.1 BACKGROUND" 12 false 0 0 = "heading" ∧
    (∀ median fs : ℚ, Extraction.determine_heading_level median fs "2.1 BACKGROUND" = 2) := by
  refine ⟨?_, by decide, ?_⟩
  · intro median fs fs2 text h
    constructor <;> simp [Extraction.determine_heading_level, h]
  · intro median fs
    rfl

/-- C4 witness: the amended statement applied at "3.1. Overview". -/
theorem C4_witness :
    Extraction.determine_heading_level 12 12 "3.1. Overview" =
      min ((Extraction.numDotStar ("3.1. Overview").data).1 + 1) 6 ∧
    Extraction.determine_heading_level 12 99 "3.1. Overview" =
      Extraction.determine_heading_level 12 12 "3.1. Overview" :=
  C4_numbered_level_amended.1 12 12 99 "3.1. Overview" (by decide)

/-- C5: a line is classified "math" if and only if its math-character
ratio strictly exceeds 2/5 = 0.4, and the math test precedes every other
rule.  The boundary is pinned by concrete lines: ratio exactly 2/5 is
classified "text", ratio 3/5 is "math", and a line matching a list
pattern with ratio above the threshold is still "math" (priority). -/
theorem C5_math_threshold :
    (∀ (median fs : ℚ) (b : Bool) (mr : ℚ) (pg : Nat) (text : String),
        (Extraction.classify_line median text fs b mr pg = "math" ↔ mr > 2/5)) ∧
    (∀ (median : ℚ) (pg : Nat) (line : Extraction.Line),
        Extraction.classify_of_line median pg line = "math" ↔
          Extraction.line_math_ratio line > 2/5) ∧
    Extraction.line_math_ratio Inputs.lineBoundary = 2/5 ∧
    Extraction.classify_of_line 12 0 Inputs.lineBoundary = "text" ∧
    Extraction.line_math_ratio Inputs.lineAbove = 3/5 ∧
    Extraction.classify_of_line 12 0 Inputs.lineAbove = "math" ∧
    Extraction.isListLine (PyStr.strip (Extraction.line_text Inputs.lineBulletMath)).data = true ∧
    Extraction.classify_of_line 12 0 Inputs.lineBulletMath = "math" := by
  have hiff : ∀ (median fs : ℚ) (b : Bool) (mr : ℚ) (pg : Nat) (text : String),
      (Extraction.classify_line median text fs b mr pg = "math" ↔ mr > 2/5) := by
    intro median fs b mr pg text
    rw [← divInt_two_five]
    unfold Extraction.classify_line
    split_ifs <;> simp_all
    split_ifs <;> simp_all
  refine ⟨hiff, ?_, ?_, ?_, ?_, ?_, ?_, ?_⟩
  · intro median pg line
    exact hiff median (Extraction.line_max_font line) (Extraction.line_is_bold line)
      (Extraction.line_math_ratio line) pg (PyStr.strip (Extraction.line_text line))
  · rw [← divInt_two_five]
    decide
  · decide
  · have : (3/5 : ℚ) = Rat.divInt 3 5 := by
      rw [Rat.divInt_eq_div]
      norm_num
    rw [this]
    decide
  · decide
  · decide
  · decide

/-- C9: hyphenation repair -- when the previous accumulated fragment ends
with a hyphen, the next line is concatenated directly after dropping the
hyphen (no joining space); through the whole pipeline, the page lines
"infor-" and "mation theory" produce the single paragraph
"information theory". -/
theorem C9_hyphenation :
    (∀ a b : String, a.data.getLast? = some '-' →
        Extraction.paraJoin [a, b] = String.mk a.data.dropLast ++ b) ∧
    ((Extraction.extract (some Inputs.D9) Inputs.sA Inputs.sA).blocks.map
       (fun b =>
         match b with
         | Extraction.CBlock.text _ _ c => some c
         | _ => none) = [some "information theory"]) ∧
    (Extraction.extract (some Inputs.D9) Inputs.sA Inputs.sA).plain_text =
      "information theory" := by
  refine ⟨?_, by decide, by decide⟩
  intro a b h
  simp [Extraction.paraJoin, Extraction.paraStep, h, joinSep]

/-- C9 witness: the hyphen rule applied at the spec's example pair. -/
theorem C9_witness :
    Extraction.paraJoin ["infor-", "mation theory"] =
      String.mk ("infor-").data.dropLast ++ "mation theory" :=
  C9_hyphenation.1 "infor-" "mation theory" (by decide)

/-! Generic fold lemmas. -/

theorem foldl_induction {α σ : Type _} (f : σ → α → σ) (P : σ → Prop)
    (hstep : ∀ s a, P s → P (f s a)) :
    ∀ (l : List α) (s : σ), P s → P (l.foldl f s) := by
  intro l
  induction l with
  | nil => intro s h; exact h
  | cons a t ih => intro s h; exact ih (f s a) (hstep s a h)

theorem foldl_relational {α σ τ : Type _} (f : σ → α → σ) (g : τ → α → τ)
    (R : σ → τ → Prop) (hstep : ∀ s t a, R s t → R (f s a) (g t a)) :
    ∀ (l : List α) (s : σ) (t : τ), R s t → R (l.foldl f s) (l.foldl g t) := by
  intro l
  induction l with
  | nil => intro s t h; exact h
  | cons a r ih => intro s t h; exact ih (f s a) (g t a) (hstep s t a h)

/-! Image-dict lemmas. -/

theorem dictInsert_keys_sub (l : List (String × Extraction.ExtractedImage))
    (k : String) (v : Extraction.ExtractedImage) :
    ∀ x ∈ l.map Prod.fst, x ∈ (Extraction.dictInsert l k v).map Prod.fst := by
  intro x hx
  unfold Extraction.dictInsert
  split
  · rcases List.mem_map.1 hx with ⟨kv, hkv, rfl⟩
    apply List.mem_map.2
    refine ⟨if kv.1 == k then (k, v) else kv, List.mem_map_of_mem _ hkv, ?_⟩
    by_cases h : kv.1 == k
    · simp only [h, if_pos]
      exact (eq_of_beq h).symm
    · simp [h]
  · rw [List.map_append]
    exact List.mem_append_left _ hx

theorem dictInsert_key_mem (l : List (String × Extraction.ExtractedImage))
    (k : String) (v : Extraction.ExtractedImage) :
    k ∈ (Extraction.dictInsert l k v).map Prod.fst := by
  unfold Extraction.dictInsert
  split
  · next hany =>
    rcases List.any_eq_true.1 hany with ⟨kv, hkv, hbeq⟩
    apply List.mem_map.2
    refine ⟨if kv.1 == k then (k, v) else kv, List.mem_map_of_mem _ hkv, ?_⟩
    simp [hbeq]
  · rw [List.map_append]
    exact List.mem_append_right _ (by simp)

theorem blockImgOk_mono {keys keys2 : List String}
    (h : ∀ x ∈ keys, x ∈ keys2) (b : Extraction.CBlock) :
    Spec.blockImgOk keys b = true → Spec.blockImgOk keys2 b = true := by
  cases b with
  | figure i src iid cap no =>
    intro hx
    simp only [Spec.blockImgOk] at hx ⊢
    exact List.elem_iff.2 (h _ (List.elem_iff.1 hx))
  | math i src latex iid alt d =>
    cases iid with
    | none => intro _; rfl
    | some x =>
      intro hx
      simp only [Spec.blockImgOk] at hx ⊢
      exact List.elem_iff.2 (h _ (List.elem_iff.1 hx))
  | heading i src lvl c => intro _; rfl
  | text i src c => intro _; rfl
  | listB i src items o => intro _; rfl

/-! The state invariant is preserved by every extractor step. -/


theorem inv_flush (ctx : Extraction.Ctx) (pn : Nat) (pr : Extraction.Rect)
    (lines : List (String × Extraction.Rect)) (st : Extraction.St)
    (h : Spec.stateBlocksOk st) :
    Spec.stateBlocksOk (Extraction.flush_paragraph ctx pn pr lines st) := by
  cases lines with
  | nil => exact h
  | cons p rest =>
    unfold Extraction.flush_paragraph
    dsimp only
    split
    · exact h
    · intro b hb
      rcases List.mem_cons.1 hb with rfl | hb2
      · exact ⟨rfl, rfl⟩
      · exact h b hb2

theorem inv_add_list_item (ctx : Extraction.Ctx) (text : String)
    (rect : Extraction.Rect) (pn : Nat) (pr : Extraction.Rect)
    (st : Extraction.St) (h : Spec.stateBlocksOk st) :
    Spec.stateBlocksOk (Extraction.add_list_item ctx text rect pn pr st) := by
  unfold Extraction.add_list_item
  dsimp only
  split
  · next lid lsrc litems lord rest heq =>
    split
    · intro b hb
      rcases List.mem_cons.1 hb with rfl | hb2
      · exact ⟨rfl, rfl⟩
      · exact h b (heq ▸ List.mem_cons_of_mem _ hb2)
    · intro b hb
      rcases List.mem_cons.1 hb with rfl | hb2
      · exact ⟨rfl, rfl⟩
      · exact h b hb2
  · intro b hb
    rcases List.mem_cons.1 hb with rfl | hb2
    · exact ⟨rfl, rfl⟩
    · exact h b hb2

theorem inv_extract_math_block (ctx : Extraction.Ctx) (text : String)
    (rect : Extraction.Rect) (page : Extraction.Page) (pn : Nat)
    (pr : Extraction.Rect) (st : Extraction.St) (h : Spec.stateBlocksOk st) :
    Spec.stateBlocksOk (Extraction.extract_math_block ctx text rect page pn pr st) := by
  unfold Extraction.extract_math_block
  dsimp only
  split
  · next bytes heq =>
    intro b hb
    rcases List.mem_cons.1 hb with rfl | hb2
    · refine ⟨?_, ?_⟩
      · simp only [Spec.blockImgOk]
        exact List.elem_iff.2 (dictInsert_key_mem _ _ _)
      · simp [Spec.displayConsistent]
    · refine ⟨?_, (h b hb2).2⟩
      exact blockImgOk_mono (dictInsert_keys_sub _ _ _) b (h b hb2).1
  · intro b hb
    rcases List.mem_cons.1 hb with rfl | hb2
    · exact ⟨rfl, by simp [Spec.displayConsistent]⟩
    · exact h b hb2

theorem inv_page_image_step (ctx : Extraction.Ctx) (page : Extraction.Page)
    (pn : Nat) (st : Extraction.St) (img : Extraction.PageImg)
    (h : Spec.stateBlocksOk st) :
    Spec.stateBlocksOk (Extraction.page_image_step ctx page pn st img) := by
  unfold Extraction.page_image_step
  dsimp only
  split
  · exact h
  · split
    · exact h
    · split
      · exact h
      · intro b hb
        rcases List.mem_cons.1 hb with rfl | hb2
        · refine ⟨?_, rfl⟩
          simp only [Spec.blockImgOk]
          exact List.elem_iff.2 (dictInsert_key_mem _ _ _)
        · refine ⟨?_, (h b hb2).2⟩
          exact blockImgOk_mono (dictInsert_keys_sub _ _ _) b (h b hb2).1

theorem inv_process_line (ctx : Extraction.Ctx) (page : Extraction.Page)
    (pn : Nat) (pr : Extraction.Rect)
    (sp : Extraction.St × List (String × Extraction.Rect)) (line : Extraction.Line)
    (h : Spec.stateBlocksOk sp.1) :
    Spec.stateBlocksOk (Extraction.process_line ctx page pn pr sp line).1 := by
  unfold Extraction.process_line
  dsimp only
  split
  · exact h
  · split
    · intro b hb
      rcases List.mem_cons.1 hb with rfl | hb2
      · exact ⟨rfl, rfl⟩
      · exact inv_flush ctx pn pr sp.2 sp.1 h b hb2
    · split
      · exact inv_extract_math_block ctx _ _ page pn pr _ (inv_flush ctx pn pr sp.2 sp.1 h)
      · split
        · exact inv_add_list_item ctx _ _ pn pr _ (inv_flush ctx pn pr sp.2 sp.1 h)
        · exact h

theorem inv_extract_page (ctx : Extraction.Ctx) (st : Extraction.St)
    (pnp : Nat × Extraction.Page) (h : Spec.stateBlocksOk st) :
    Spec.stateBlocksOk (Extraction.extract_page ctx st pnp) := by
  unfold Extraction.extract_page
  dsimp only
  apply inv_flush
  have h1 : Spec.stateBlocksOk
      (pnp.2.images.foldl (Extraction.page_image_step ctx pnp.2 pnp.1) st) :=
    foldl_induction _ _ (fun s a hs => inv_page_image_step ctx pnp.2 pnp.1 s a hs) _ _ h
  have h2 := foldl_induction
    (fun (sp : Extraction.St × List (String × Extraction.Rect)) b =>
      match b with
      | Extraction.PBlock.textB _ lines =>
        Extraction.process_text_block ctx pnp.2 pnp.1 pnp.2.rect sp lines
      | Extraction.PBlock.imageB _ => sp)
    (fun sp => Spec.stateBlocksOk sp.1) ?_ pnp.2.blocks
    (pnp.2.images.foldl (Extraction.page_image_step ctx pnp.2 pnp.1) st,
     ([] : List (String × Extraction.Rect))) h1
  · exact h2
  · intro s a hs
    cases a with
    | textB bb lines =>
      exact foldl_induction _ (fun sp => Spec.stateBlocksOk sp.1)
        (fun s2 ln hs2 => inv_process_line ctx pnp.2 pnp.1 pnp.2.rect s2 ln hs2) lines s hs
    | imageB bb => exact hs

theorem inv_extract_state (d : Extraction.Doc) (sb si : Nat → String) :
    Spec.stateBlocksOk
      (d.pages.enum.foldl
        (Extraction.extract_page ⟨sb, si, Extraction.collect_font_stats d⟩)
        Extraction.initSt) := by
  refine foldl_induction _ Spec.stateBlocksOk
    (fun s a hs => inv_extract_page _ s a hs) d.pages.enum Extraction.initSt ?_
  intro b hb
  cases hb

/-- C10: in every `ExtractionResult`, each figure block's `image_id` is a
key of the result's `images` mapping, and each math block's `image_id` is
either `none` (rasterisation failed) or likewise a key of the mapping --
for every document and every uuid stream. -/
theorem C10_image_reference_integrity (doc : Option Extraction.Doc)
    (sb si : Nat → String) :
    (Extraction.extract doc sb si).blocks.all
      (Spec.blockImgOk ((Extraction.extract doc sb si).images.map Prod.fst)) = true := by
  cases doc with
  | none => rfl
  | some d =>
    have hinv := inv_extract_state d sb si
    unfold Extraction.extract
    dsimp only
    rw [List.all_eq_true]
    intro b hb
    have hb2 := List.mem_reverse.1 hb
    have hkey := (hinv b hb2).1
    have hkeys :
        (((d.pages.enum.foldl
            (Extraction.extract_page ⟨sb, si, Extraction.collect_font_stats d⟩)
            Extraction.initSt).images.map
              (fun kv => (kv.1,
                (⟨kv.2.id, kv.2.page, kv.2.mime_type, kv.2.bbox⟩ : Extraction.ResImage)))).map
          Prod.fst) =
        (d.pages.enum.foldl
            (Extraction.extract_page ⟨sb, si, Extraction.collect_font_stats d⟩)
            Extraction.initSt).images.map Prod.fst := by
      rw [List.map_map]
      rfl
    rw [hkeys]
    exact hkey

/-- C8 (amended): a classified math line is flagged display if and only
if its text is longer than 20 characters after stripping or contains an
equals sign; summation, product and integral symbols do not by
themselves trigger display.  Every math block of every result carries a
display flag equal to that function of its own alt text. -/
theorem C8_display_amended (doc : Option Extraction.Doc) (sb si : Nat → String) :
    (Extraction.extract doc sb si).blocks.all Spec.displayConsistent = true := by
  cases doc with
  | none => rfl
  | some d =>
    have hinv := inv_extract_state d sb si
    unfold Extraction.extract
    dsimp only
    rw [List.all_eq_true]
    intro b hb
    exact (hinv b (List.mem_reverse.1 hb)).2

theorem build_outline_block_ids (bs : List Extraction.CBlock) :
    ∀ o ∈ Extraction.build_outline bs, ∃ b ∈ bs, o.block_id = b.id := by
  intro o ho
  rcases List.mem_filterMap.1 ho with ⟨b, hb, hmap⟩
  cases b with
  | heading i src lvl c =>
    refine ⟨Extraction.CBlock.heading i src lvl c, hb, ?_⟩
    simp only [Option.some.injEq] at hmap
    rw [← hmap]
    rfl
  | text i src c => simp at hmap
  | math i src l iid a dd => simp at hmap
  | figure i src iid cap no => simp at hmap
  | listB i src items o2 => simp at hmap

theorem find_heading_block_mem (bs : List Extraction.CBlock) (title : String)
    (p : Int) (x : String)
    (h : Extraction.find_heading_block bs title p = some x) :
    ∃ b ∈ bs, x = b.id := by
  unfold Extraction.find_heading_block at h
  dsimp only at h
  split at h
  · next b hfind =>
    exact ⟨b, List.mem_of_find?_eq_some hfind, by
      simp only [Option.some.injEq] at h
      exact h.symm⟩
  · rcases Option.map_eq_some'.1 h with ⟨b, hfind, hx⟩
    exact ⟨b, List.mem_of_find?_eq_some hfind, hx.symm⟩

theorem find_heading_block_isSome (bs : List Extraction.CBlock) (title : String)
    (p : Int) (hex : ∃ b ∈ bs, (b.source.page : Int) = p) :
    (Extraction.find_heading_block bs title p).isSome = true := by
  unfold Extraction.find_heading_block
  dsimp only
  split
  · rfl
  · rcases hex with ⟨b, hb, hp⟩
    rw [Option.isSome_map']
    rw [List.find?_isSome]
    exact ⟨b, hb, by simp [hp]⟩

/-- C7 (amended): the built-in TOC supersedes the heading outline exactly
when it is nonempty and strictly longer; each superseding entry is mapped
to the first same-page heading whose text equals or contains the title,
else to the first block of any kind on that page; provided every TOC
entry's (0-indexed) page carries at least one block, every resulting
outline entry's `block_id` is the id of an existing block. -/
theorem C7_toc_resolution_amended (d : Extraction.Doc) (sb si : Nat → String)
    (h : ∀ t ∈ d.toc, ∃ b ∈ (Extraction.extract (some d) sb si).blocks,
        (b.source.page : Int) = t.page - 1) :
    ∀ o ∈ (Extraction.extract (some d) sb si).outline,
      ∃ b ∈ (Extraction.extract (some d) sb si).blocks, o.block_id = b.id := by
  intro o ho
  unfold Extraction.extract at h ho ⊢
  dsimp only at h ho ⊢
  unfold Extraction.extract_toc at ho
  split at ho
  · exact build_outline_block_ids _ o ho
  · dsimp only at ho
    split at ho
    · exact build_outline_block_ids _ o ho
    · rcases List.mem_map.1 ho with ⟨t, ht, hot⟩
      rcases h t ht with ⟨b0, hb0, hp0⟩
      have hsome := find_heading_block_isSome
        ((d.pages.enum.foldl
            (Extraction.extract_page ⟨sb, si, Extraction.collect_font_stats d⟩)
            Extraction.initSt).blocksRev.reverse) t.title (t.page - 1) ⟨b0, hb0, hp0⟩
      rcases Option.isSome_iff_exists.1 hsome with ⟨x, hx⟩
      rcases find_heading_block_mem _ _ _ _ hx with ⟨b, hb, hxb⟩
      refine ⟨b, hb, ?_⟩
      rw [← hot]
      dsimp only
      rw [hx]
      exact hxb

/-- C7 witness: the amended statement applied to a document whose TOC
pages all carry blocks. -/
theorem C7_witness :
    (∀ t ∈ Inputs.D7w.toc,
        ∃ b ∈ (Extraction.extract (some Inputs.D7w) Inputs.sA Inputs.sA).blocks,
          (b.source.page : Int) = t.page - 1) ∧
    (∀ o ∈ (Extraction.extract (some Inputs.D7w) Inputs.sA Inputs.sA).outline,
        ∃ b ∈ (Extraction.extract (some Inputs.D7w) Inputs.sA Inputs.sA).blocks,
          o.block_id = b.id) :=
  ⟨by decide, C7_toc_resolution_amended Inputs.D7w Inputs.sA Inputs.sA (by decide)⟩

theorem pendingOut_refs_free (p : Services.Pending) :
    Spec.refsFree (Services.pendingOut p) = true := by
  cases p with
  | noneP => rfl
  | listP o items => rfl
  | textP c =>
    unfold Services.pendingOut
    dsimp only
    split
    · rfl
    · rfl

theorem refsFree_append (l1 l2 : List Services.SOut) :
    Spec.refsFree (l1 ++ l2) = (Spec.refsFree l1 && Spec.refsFree l2) := by
  simp [Spec.refsFree, List.all_append]

theorem ppStep_refs (out : List Services.SOut) (p : Services.Pending)
    (r : List (Option String × String)) :
    Services.ppStep (out, p) (Services.SOut.references r) =
      (out ++ Services.pendingOut p ++ [Services.SOut.references r],
       Services.Pending.noneP) := by
  cases p <;> rfl

theorem post_process_append_refs (xs : List Services.SOut)
    (r : List (Option String × String)) :
    Services.post_process_blocks (xs ++ [Services.SOut.references r]) =
      Services.post_process_blocks xs ++ [Services.SOut.references r] := by
  unfold Services.post_process_blocks
  rw [List.foldl_append]
  rcases hfold : xs.foldl Services.ppStep ([], Services.Pending.noneP) with ⟨out, p⟩
  rw [List.foldl_cons, List.foldl_nil, ppStep_refs]
  dsimp only [Services.pendingOut]
  rw [List.append_nil]

theorem ppStep_refs_free (s : List Services.SOut × Services.Pending)
    (b : Services.SOut)
    (hout : Spec.refsFree s.1 = true)
    (hb : Spec.refsFree [b] = true) :
    Spec.refsFree (Services.ppStep s b).1 = true := by
  rcases s with ⟨out, p⟩
  cases b <;> cases p <;>
    (dsimp only [Services.ppStep];
     first
       | (split <;> simp_all [refsFree_append, pendingOut_refs_free])
       | simp_all [refsFree_append, pendingOut_refs_free])

theorem post_process_refs_free (bs : List Services.SOut)
    (h : Spec.refsFree bs = true) :
    Spec.refsFree (Services.post_process_blocks bs) = true := by
  unfold Services.post_process_blocks
  have main : ∀ (l : List Services.SOut) (s : List Services.SOut × Services.Pending),
      Spec.refsFree l = true → Spec.refsFree s.1 = true →
      Spec.refsFree (l.foldl Services.ppStep s).1 = true := by
    intro l
    induction l with
    | nil => intro s _ hs; exact hs
    | cons a t ih =>
      intro s hl hs
      rw [Spec.refsFree, List.all_cons, Bool.and_eq_true] at hl
      exact ih _ (hl.2) (ppStep_refs_free s a hs (by simp [Spec.refsFree, hl.1]))
  have h1 := main bs ([], Services.Pending.noneP) h rfl
  rw [refsFree_append, h1, pendingOut_refs_free]
  rfl

theorem process_text_block_refs_free (lines : List Services.SLine) (pn : Nat) :
    Spec.refsFree (Services.process_text_block lines pn) = true := by
  unfold Services.process_text_block
  refine foldl_induction _ (fun rs => Spec.refsFree rs = true) ?_ lines [] rfl
  intro rs line h
  dsimp only
  split
  · exact h
  · split
    · rw [refsFree_append, h]; rfl
    · split
      · split
        · rw [refsFree_append, h]; rfl
        · rw [refsFree_append, h]; rfl
      · split
        · rw [refsFree_append, h]; rfl
        · rw [refsFree_append, h]; rfl

theorem flushPara_refs_free (st : Services.AState)
    (h : Spec.refsFree st.blocks = true) :
    Spec.refsFree (Services.flushPara st).blocks = true := by
  unfold Services.flushPara
  split
  · exact h
  · rw [refsFree_append, h]; rfl

theorem procItem_refs_free (st : Services.AState) (item : Services.SOut)
    (hst : Spec.refsFree st.blocks = true)
    (hitem : Spec.refsFree [item] = true) :
    Spec.refsFree (Services.procItem st item).blocks = true := by
  cases item with
  | heading lvl content i =>
    dsimp only [Services.procItem]
    split
    · rw [refsFree_append, flushPara_refs_free st hst]; rfl
    · rw [refsFree_append, hst]; rfl
  | textOut content =>
    dsimp only [Services.procItem]
    split
    · exact hst
    · split
      · exact hst
      · split
        · exact flushPara_refs_free st hst
        · exact hst
  | mathBlock a b =>
    dsimp only [Services.procItem]
    rw [refsFree_append, flushPara_refs_free st hst]; rfl
  | mathInline a b =>
    dsimp only [Services.procItem]
    rw [refsFree_append, flushPara_refs_free st hst]; rfl
  | listOut o items =>
    dsimp only [Services.procItem]
    rw [refsFree_append, flushPara_refs_free st hst]; rfl
  | figureOut img =>
    dsimp only [Services.procItem]
    rw [refsFree_append, flushPara_refs_free st hst]; rfl
  | references items => simp [Spec.refsFree] at hitem

theorem foldl_procItem_refs_free (items : List Services.SOut) :
    ∀ st : Services.AState, Spec.refsFree items = true →
      Spec.refsFree st.blocks = true →
      Spec.refsFree (items.foldl Services.procItem st).blocks = true := by
  induction items with
  | nil => intro st _ h; exact h
  | cons a t ih =>
    intro st hl hs
    rw [Spec.refsFree, List.all_cons, Bool.and_eq_true] at hl
    exact ih _ hl.2 (procItem_refs_free st a hs (by simp [Spec.refsFree, hl.1]))

theorem refsCount_eq_zero (bs : List Services.SOut)
    (h : Spec.refsFree bs = true) : Spec.refsCount bs = 0 := by
  rw [Spec.refsCount, List.countP_eq_zero]
  rw [Spec.refsFree, List.all_eq_true] at h
  intro a ha
  have := h a ha
  cases a <;> simp_all

theorem refsFree_dropLast (bs : List Services.SOut)
    (h : Spec.refsFree bs = true) : Spec.refsFree bs.dropLast = true := by
  rw [Spec.refsFree, List.all_eq_true] at h ⊢
  intro a ha
  exact h a (List.Sublist.subset (List.dropLast_sublist bs) ha)

theorem extract_image_block_not_refs (bbox : Option Extraction.Rect)
    (raster : Option (List Nat)) (fig : Services.SOut)
    (h : Services.extract_image_block bbox raster = some fig) :
    Spec.refsFree [fig] = true := by
  unfold Services.extract_image_block at h
  rcases bbox with _ | b
  · exact absurd h (by simp)
  · dsimp only at h
    split at h
    · exact absurd h (by simp)
    · rcases raster with _ | bytes
      · exact absurd h (by simp)
      · simp only [Option.some.injEq] at h
        rw [← h]
        rfl

theorem assembled_refs_ok (st : Services.AState)
    (h : Spec.refsFree st.blocks = true) :
    Spec.refsCount (Services.post_process_blocks
      (if (Services.flushPara st).refs.isEmpty then (Services.flushPara st).blocks
       else (Services.flushPara st).blocks ++
         [Services.SOut.references (Services.flushPara st).refs])) ≤ 1 ∧
    Spec.refsFree (Services.post_process_blocks
      (if (Services.flushPara st).refs.isEmpty then (Services.flushPara st).blocks
       else (Services.flushPara st).blocks ++
         [Services.SOut.references (Services.flushPara st).refs])).dropLast = true := by
  have h1 := flushPara_refs_free st h
  split
  · constructor
    · rw [refsCount_eq_zero _ (post_process_refs_free _ h1)]
      exact Nat.zero_le 1
    · exact refsFree_dropLast _ (post_process_refs_free _ h1)
  · rw [post_process_append_refs]
    constructor
    · rw [Spec.refsCount, List.countP_append]
      have h2 := refsCount_eq_zero _ (post_process_refs_free _ h1)
      rw [Spec.refsCount] at h2
      rw [h2]
      simp
    · rw [List.dropLast_concat]
      exact post_process_refs_free _ h1

/-- C6: after a heading whose lowercased text contains a references,
bibliography or citations name, text lines are parsed as reference
entries (a leading bracketed or bare number becomes the entry number,
`none` when absent) and collected into one trailing `references` block:
the spec's example evaluates exactly as claimed, and for every document
the output contains at most one `references` block, which can only be
the final block. -/
theorem C6_references_mode :
    ((Services.extract_structured_content Inputs.D6).1 =
      [Services.SOut.heading 1 "References" "heading-0-0",
       Services.SOut.references
         [(some "1", "Smith, J. (2020)."), (none, "Second entry without brackets")]]) ∧
    (∀ doc : Services.SDoc,
        Spec.refsCount (Services.extract_structured_content doc).1 ≤ 1 ∧
        Spec.refsFree ((Services.extract_structured_content doc).1.dropLast) = true) := by
  refine ⟨by decide, ?_⟩
  intro doc
  unfold Services.extract_structured_content
  dsimp only
  apply assembled_refs_ok
  refine foldl_induction _ (fun (st : Services.AState) => Spec.refsFree st.blocks = true)
    ?_ _ _ rfl
  intro st pn hs
  refine foldl_induction _ (fun (st : Services.AState) => Spec.refsFree st.blocks = true)
    ?_ pn.2.blocks st hs
  intro st2 b hs2
  cases b with
  | textB lines =>
    exact foldl_procItem_refs_free _ _ (process_text_block_refs_free lines pn.1) hs2
  | imageB bbox raster =>
    dsimp only
    split
    · next fig hfig =>
      rw [refsFree_append, flushPara_refs_free st2 hs2,
        extract_image_block_not_refs bbox raster fig hfig]
      rfl
    · exact hs2

/-! Lemmas for the id-erased determinism theorem (C1). -/

theorem str_append_cancel {p a b : String} (h : p ++ a = p ++ b) : a = b := by
  have hd : (p ++ a).data = (p ++ b).data := congrArg String.data h
  rw [String.data_append, String.data_append] at hd
  exact String.ext (List.append_cancel_left hd)

theorem not_mem_imgKeys (si : Nat → String) (hinj : Function.Injective si)
    (n : Nat) : "img_" ++ si n ∉ Extraction.imgKeys si n := by
  unfold Extraction.imgKeys
  intro hmem
  rcases List.mem_map.1 hmem with ⟨j, hj, hEq⟩
  have hj2 : j < n := List.mem_range.1 hj
  have : j = n := hinj (str_append_cancel hEq)
  omega

theorem dictInsert_fresh (l : List (String × Extraction.ExtractedImage))
    (k : String) (v : Extraction.ExtractedImage) (h : k ∉ l.map Prod.fst) :
    Extraction.dictInsert l k v = l ++ [(k, v)] := by
  unfold Extraction.dictInsert
  split
  · next hany =>
    exfalso
    rcases List.any_eq_true.1 hany with ⟨kv, hkv, hbeq⟩
    exact h (List.mem_map.2 ⟨kv, hkv, eq_of_beq hbeq⟩)
  · rfl

theorem imgKeys_succ (si : Nat → String) (n : Nat) :
    Extraction.imgKeys si (n + 1) =
      Extraction.imgKeys si n ++ ["img_" ++ si n] := by
  unfold Extraction.imgKeys
  rw [List.range_succ, List.map_append]
  rfl

theorem rel_flush (sb1 si1 sb2 si2 : Nat → String) (m : ℚ) (pn : Nat)
    (pr : Extraction.Rect) (lines : List (String × Extraction.Rect))
    {s1 s2 : Extraction.St} (h : Extraction.Rel si1 si2 s1 s2) :
    Extraction.Rel si1 si2
      (Extraction.flush_paragraph ⟨sb1, si1, m⟩ pn pr lines s1)
      (Extraction.flush_paragraph ⟨sb2, si2, m⟩ pn pr lines s2) := by
  cases lines with
  | nil => exact h
  | cons p rest =>
    unfold Extraction.flush_paragraph
    dsimp only
    split
    · exact h
    · refine ⟨?_, h.imgs, ?_, ?_, ?_, h.ic, h.k1, h.k2⟩
      · simp only [List.map_cons, Extraction.eraseBlock]
        rw [h.off, h.blocks]
      · rw [h.ptp]
      · rw [h.off]
      · rw [h.bc]

theorem rel_fresh_list (sb1 si1 sb2 si2 : Nat → String) (text : String)
    (rect : Extraction.Rect) (pn : Nat) (pr : Extraction.Rect)
    {s1 s2 : Extraction.St} (h : Extraction.Rel si1 si2 s1 s2) :
    Extraction.Rel si1 si2
      { s1 with
        blocksRev := Extraction.CBlock.listB (Extraction.generate_block_id sb1 s1.blkCtr)
          ⟨pn, some (Extraction.BoundingBox.from_rect rect pr),
           some s1.charOffset, some (s1.charOffset + text.length)⟩
          [Extraction.stripListMarker text] (Extraction.orderedMark text) :: s1.blocksRev
        blkCtr := s1.blkCtr + 1
        ptpRev := Extraction.stripListMarker text :: s1.ptpRev
        charOffset := s1.charOffset + (Extraction.stripListMarker text).length + 2 }
      { s2 with
        blocksRev := Extraction.CBlock.listB (Extraction.generate_block_id sb2 s2.blkCtr)
          ⟨pn, some (Extraction.BoundingBox.from_rect rect pr),
           some s2.charOffset, some (s2.charOffset + text.length)⟩
          [Extraction.stripListMarker text] (Extraction.orderedMark text) :: s2.blocksRev
        blkCtr := s2.blkCtr + 1
        ptpRev := Extraction.stripListMarker text :: s2.ptpRev
        charOffset := s2.charOffset + (Extraction.stripListMarker text).length + 2 } := by
  refine ⟨?_, h.imgs, ?_, ?_, ?_, h.ic, h.k1, h.k2⟩
  · simp only [List.map_cons, Extraction.eraseBlock]
    rw [h.off, h.blocks]
  · rw [h.ptp]
  · rw [h.off]
  · rw [h.bc]

theorem rel_add_list_item (sb1 si1 sb2 si2 : Nat → String) (m : ℚ)
    (text : String) (rect : Extraction.Rect) (pn : Nat) (pr : Extraction.Rect)
    {s1 s2 : Extraction.St} (h : Extraction.Rel si1 si2 s1 s2) :
    Extraction.Rel si1 si2
      (Extraction.add_list_item ⟨sb1, si1, m⟩ text rect pn pr s1)
      (Extraction.add_list_item ⟨sb2, si2, m⟩ text rect pn pr s2) := by
  obtain ⟨br1, im1, pt1, co1, bc1, ic1⟩ := s1
  obtain ⟨br2, im2, pt2, co2, bc2, ic2⟩ := s2
  unfold Extraction.add_list_item
  dsimp only
  cases br1 with
  | nil =>
    cases br2 with
    | nil => exact rel_fresh_list sb1 si1 sb2 si2 text rect pn pr h
    | cons b2 r2 => exact absurd h.blocks (by simp)
  | cons b1 r1 =>
    cases br2 with
    | nil => exact absurd h.blocks (by simp)
    | cons b2 r2 =>
      have hb := h.blocks
      simp only [List.map_cons, List.cons.injEq] at hb
      obtain ⟨hhead, htail⟩ := hb
      cases b1 <;> cases b2 <;> simp only [Extraction.eraseBlock] at hhead <;>
        first
          | (dsimp only
             exact rel_fresh_list sb1 si1 sb2 si2 text rect pn pr h)
          | exact Extraction.CBlock.noConfusion hhead
          | skip
      injection hhead with hid hsrc hitems hord
      subst hord
      subst hsrc
      subst hitems
      dsimp only
      split
      · have hptp : pt1 = pt2 := h.ptp
        have hoff : co1 = co2 := h.off
        refine ⟨?_, h.imgs, ?_, ?_, h.bc, h.ic, h.k1, h.k2⟩
        · simp only [List.map_cons, Extraction.eraseBlock, List.cons.injEq]
          exact ⟨trivial, htail⟩
        · rw [hptp]
        · rw [hoff]
      · exact rel_fresh_list sb1 si1 sb2 si2 text rect pn pr h

theorem rel_extract_math_block (sb1 si1 sb2 si2 : Nat → String) (m : ℚ)
    (hi1 : Function.Injective si1) (hi2 : Function.Injective si2)
    (text : String) (rect : Extraction.Rect) (page : Extraction.Page)
    (pn : Nat) (pr : Extraction.Rect)
    {s1 s2 : Extraction.St} (h : Extraction.Rel si1 si2 s1 s2) :
    Extraction.Rel si1 si2
      (Extraction.extract_math_block ⟨sb1, si1, m⟩ text rect page pn pr s1)
      (Extraction.extract_math_block ⟨sb2, si2, m⟩ text rect page pn pr s2) := by
  obtain ⟨br1, im1, pt1, co1, bc1, ic1⟩ := s1
  obtain ⟨br2, im2, pt2, co2, bc2, ic2⟩ := s2
  have hic : ic1 = ic2 := h.ic
  have hbc : bc1 = bc2 := h.bc
  have hco : co1 = co2 := h.off
  have hptp : pt1 = pt2 := h.ptp
  subst hic
  subst hbc
  subst hco
  subst hptp
  have hblocks : br1.map Extraction.eraseBlock = br2.map Extraction.eraseBlock := h.blocks
  have himgs : im1.map (fun kv => Extraction.eraseImgV kv.2) =
      im2.map (fun kv => Extraction.eraseImgV kv.2) := h.imgs
  have hk1 : im1.map Prod.fst = Extraction.imgKeys si1 ic1 := h.k1
  have hk2 : im2.map Prod.fst = Extraction.imgKeys si2 ic1 := h.k2
  have hfresh1 : Extraction.generate_image_id si1 ic1 ∉ im1.map Prod.fst := by
    rw [hk1]; exact not_mem_imgKeys si1 hi1 ic1
  have hfresh2 : Extraction.generate_image_id si2 ic1 ∉ im2.map Prod.fst := by
    rw [hk2]; exact not_mem_imgKeys si2 hi2 ic1
  unfold Extraction.extract_math_block
  dsimp only
  split
  · next bytes hr =>
    rw [dictInsert_fresh _ _ _ hfresh1, dictInsert_fresh _ _ _ hfresh2]
    refine ⟨?_, ?_, rfl, rfl, rfl, rfl, ?_, ?_⟩
    · simp only [List.map_cons, Extraction.eraseBlock, Option.map, hblocks]
    · rw [List.map_append, List.map_append, himgs]
      simp [Extraction.eraseImgV]
    · rw [List.map_append, hk1, imgKeys_succ]
      rfl
    · rw [List.map_append, hk2, imgKeys_succ]
      rfl
  · refine ⟨?_, himgs, rfl, rfl, rfl, rfl, hk1, hk2⟩
    simp only [List.map_cons, Extraction.eraseBlock, Option.map, hblocks]

theorem rel_page_image_step (sb1 si1 sb2 si2 : Nat → String) (m : ℚ)
    (hi1 : Function.Injective si1) (hi2 : Function.Injective si2)
    (page : Extraction.Page) (pn : Nat)
    {s1 s2 : Extraction.St} (h : Extraction.Rel si1 si2 s1 s2)
    (img : Extraction.PageImg) :
    Extraction.Rel si1 si2
      (Extraction.page_image_step ⟨sb1, si1, m⟩ page pn s1 img)
      (Extraction.page_image_step ⟨sb2, si2, m⟩ page pn s2 img) := by
  obtain ⟨br1, im1, pt1, co1, bc1, ic1⟩ := s1
  obtain ⟨br2, im2, pt2, co2, bc2, ic2⟩ := s2
  have hic : ic1 = ic2 := h.ic
  have hbc : bc1 = bc2 := h.bc
  have hco : co1 = co2 := h.off
  have hptp : pt1 = pt2 := h.ptp
  subst hic
  subst hbc
  subst hco
  subst hptp
  have hblocks : br1.map Extraction.eraseBlock = br2.map Extraction.eraseBlock := h.blocks
  have himgs : im1.map (fun kv => Extraction.eraseImgV kv.2) =
      im2.map (fun kv => Extraction.eraseImgV kv.2) := h.imgs
  have hk1 : im1.map Prod.fst = Extraction.imgKeys si1 ic1 := h.k1
  have hk2 : im2.map Prod.fst = Extraction.imgKeys si2 ic1 := h.k2
  have hfresh1 : Extraction.generate_image_id si1 ic1 ∉ im1.map Prod.fst := by
    rw [hk1]; exact not_mem_imgKeys si1 hi1 ic1
  have hfresh2 : Extraction.generate_image_id si2 ic1 ∉ im2.map Prod.fst := by
    rw [hk2]; exact not_mem_imgKeys si2 hi2 ic1
  unfold Extraction.page_image_step
  dsimp only
  split
  · exact h
  · split
    · exact h
    · split
      · exact h
      · rw [dictInsert_fresh _ _ _ hfresh1, dictInsert_fresh _ _ _ hfresh2]
        refine ⟨?_, ?_, rfl, rfl, rfl, rfl, ?_, ?_⟩
        · simp only [List.map_cons, Extraction.eraseBlock, hblocks]
        · rw [List.map_append, List.map_append, himgs]
          simp [Extraction.eraseImgV]
        · rw [List.map_append, hk1, imgKeys_succ]
          rfl
        · rw [List.map_append, hk2, imgKeys_succ]
          rfl

theorem rel_process_line (sb1 si1 sb2 si2 : Nat → String) (m : ℚ)
    (hi1 : Function.Injective si1) (hi2 : Function.Injective si2)
    (page : Extraction.Page) (pn : Nat) (pr : Extraction.Rect)
    {p1 p2 : Extraction.St × List (String × Extraction.Rect)}
    (h : Extraction.Rel si1 si2 p1.1 p2.1) (hp : p1.2 = p2.2)
    (line : Extraction.Line) :
    Extraction.Rel si1 si2
      (Extraction.process_line ⟨sb1, si1, m⟩ page pn pr p1 line).1
      (Extraction.process_line ⟨sb2, si2, m⟩ page pn pr p2 line).1 ∧
    (Extraction.process_line ⟨sb1, si1, m⟩ page pn pr p1 line).2 =
      (Extraction.process_line ⟨sb2, si2, m⟩ page pn pr p2 line).2 := by
  obtain ⟨s1, q1⟩ := p1
  obtain ⟨s2, q2⟩ := p2
  dsimp only at h hp
  subst hp
  unfold Extraction.process_line
  dsimp only
  split
  · exact ⟨h, rfl⟩
  · split
    · have h1 := rel_flush sb1 si1 sb2 si2 m pn pr q1 h
      refine ⟨⟨?_, h1.imgs, ?_, ?_, ?_, h1.ic, h1.k1, h1.k2⟩, rfl⟩
      · simp only [List.map_cons, Extraction.eraseBlock]
        rw [h1.off, h1.blocks]
      · rw [h1.ptp]
      · rw [h1.off]
      · rw [h1.bc]
    · split
      · exact ⟨rel_extract_math_block sb1 si1 sb2 si2 m hi1 hi2 _ _ page pn pr
          (rel_flush sb1 si1 sb2 si2 m pn pr q1 h), rfl⟩
      · split
        · exact ⟨rel_add_list_item sb1 si1 sb2 si2 m _ _ pn pr
            (rel_flush sb1 si1 sb2 si2 m pn pr q1 h), rfl⟩
        · exact ⟨h, rfl⟩

theorem rel_extract_page (sb1 si1 sb2 si2 : Nat → String) (m : ℚ)
    (hi1 : Function.Injective si1) (hi2 : Function.Injective si2)
    (pnp : Nat × Extraction.Page)
    {s1 s2 : Extraction.St} (h : Extraction.Rel si1 si2 s1 s2) :
    Extraction.Rel si1 si2
      (Extraction.extract_page ⟨sb1, si1, m⟩ s1 pnp)
      (Extraction.extract_page ⟨sb2, si2, m⟩ s2 pnp) := by
  unfold Extraction.extract_page
  dsimp only
  have h1 : Extraction.Rel si1 si2
      (pnp.2.images.foldl (Extraction.page_image_step ⟨sb1, si1, m⟩ pnp.2 pnp.1) s1)
      (pnp.2.images.foldl (Extraction.page_image_step ⟨sb2, si2, m⟩ pnp.2 pnp.1) s2) :=
    foldl_relational (Extraction.page_image_step ⟨sb1, si1, m⟩ pnp.2 pnp.1)
      (Extraction.page_image_step ⟨sb2, si2, m⟩ pnp.2 pnp.1)
      (Extraction.Rel si1 si2)
      (fun a b im hr => rel_page_image_step sb1 si1 sb2 si2 m hi1 hi2 pnp.2 pnp.1 hr im)
      pnp.2.images s1 s2 h
  have h2 := foldl_relational
    (fun (sp : Extraction.St × List (String × Extraction.Rect)) b =>
      match b with
      | Extraction.PBlock.textB _ lines =>
        Extraction.process_text_block ⟨sb1, si1, m⟩ pnp.2 pnp.1 pnp.2.rect sp lines
      | Extraction.PBlock.imageB _ => sp)
    (fun (sp : Extraction.St × List (String × Extraction.Rect)) b =>
      match b with
      | Extraction.PBlock.textB _ lines =>
        Extraction.process_text_block ⟨sb2, si2, m⟩ pnp.2 pnp.1 pnp.2.rect sp lines
      | Extraction.PBlock.imageB _ => sp)
    (fun a b => Extraction.Rel si1 si2 a.1 b.1 ∧ a.2 = b.2)
    ?_ pnp.2.blocks
    (pnp.2.images.foldl (Extraction.page_image_step ⟨sb1, si1, m⟩ pnp.2 pnp.1) s1,
     ([] : List (String × Extraction.Rect)))
    (pnp.2.images.foldl (Extraction.page_image_step ⟨sb2, si2, m⟩ pnp.2 pnp.1) s2,
     ([] : List (String × Extraction.Rect)))
    ⟨h1, rfl⟩
  · rw [h2.2]
    exact rel_flush sb1 si1 sb2 si2 m pnp.1 pnp.2.rect _ h2.1
  · intro a b blk hr
    cases blk with
    | textB bb lines =>
      exact foldl_relational _ _
        (fun a b => Extraction.Rel si1 si2 a.1 b.1 ∧ a.2 = b.2)
        (fun a b ln hr2 =>
          rel_process_line sb1 si1 sb2 si2 m hi1 hi2 pnp.2 pnp.1 pnp.2.rect hr2.1 hr2.2 ln)
        lines a b hr
    | imageB bb => exact hr

theorem build_outline_factor :
    ∀ bs : List Extraction.CBlock,
      (Extraction.build_outline bs).map Extraction.eraseOutline =
        (Extraction.build_outline (bs.map Extraction.eraseBlock)).map Extraction.eraseOutline := by
  intro bs
  induction bs with
  | nil => rfl
  | cons b t ih =>
    cases b <;>
      simp [Extraction.build_outline, Extraction.eraseBlock, Extraction.eraseOutline,
        List.filterMap_cons] <;>
      simpa [Extraction.build_outline] using ih

theorem extract_toc_erase (d : Extraction.Doc)
    (bs1 bs2 : List Extraction.CBlock) (o1 o2 : List Extraction.OutlineItem)
    (ho : o1.map Extraction.eraseOutline = o2.map Extraction.eraseOutline) :
    (Extraction.extract_toc d bs1 o1).map Extraction.eraseOutline =
      (Extraction.extract_toc d bs2 o2).map Extraction.eraseOutline := by
  have hlen : o1.length = o2.length := by
    have h2 := congrArg List.length ho
    simpa using h2
  unfold Extraction.extract_toc
  rw [hlen]
  split
  · exact ho
  · cases htoc : d.toc with
    | nil => exact ho
    | cons t ts =>
      dsimp only
      simp only [List.map_cons, List.isEmpty_cons, Bool.false_eq_true, if_false]
      simp only [List.map_map]
      rfl

theorem images_erase (l1 l2 : List (String × Extraction.ExtractedImage))
    (h : l1.map (fun kv => Extraction.eraseImgV kv.2) =
      l2.map (fun kv => Extraction.eraseImgV kv.2)) :
    (l1.map (fun kv =>
        (kv.1, Extraction.ResImage.mk kv.2.id kv.2.page kv.2.mime_type kv.2.bbox))).map
        (fun kv => ("", Extraction.eraseResImage kv.2)) =
      (l2.map (fun kv =>
        (kv.1, Extraction.ResImage.mk kv.2.id kv.2.page kv.2.mime_type kv.2.bbox))).map
        (fun kv => ("", Extraction.eraseResImage kv.2)) := by
  have e1 : ∀ (l : List (String × Extraction.ExtractedImage)),
      (l.map (fun kv =>
        (kv.1, Extraction.ResImage.mk kv.2.id kv.2.page kv.2.mime_type kv.2.bbox))).map
        (fun kv => ("", Extraction.eraseResImage kv.2)) =
      (l.map (fun kv => Extraction.eraseImgV kv.2)).map
        (fun v => (("" : String), Extraction.ResImage.mk v.id v.page v.mime_type v.bbox)) := by
    intro l
    simp only [List.map_map]
    rfl
  rw [e1, e1, h]

/-- C1: byte-identical determinism across runs fails because block and
image ids are drawn from `uuid4` (see `C1_counterexample`); the amended
property proved here: on every document, two runs with arbitrary block-id
streams and injective image-id streams produce `ExtractionResult`s that
are identical after erasing every generated identifier -- equal blocks,
outline, images, metadata, plain text and page count up to ids. -/
theorem C1_erased_determinism (doc : Option Extraction.Doc)
    (sb1 si1 sb2 si2 : Nat → String)
    (hi1 : Function.Injective si1) (hi2 : Function.Injective si2) :
    Extraction.eraseIds (Extraction.extract doc sb1 si1) =
      Extraction.eraseIds (Extraction.extract doc sb2 si2) := by
  cases doc with
  | none => rfl
  | some d =>
    have hrel : Extraction.Rel si1 si2
        (d.pages.enum.foldl
          (Extraction.extract_page ⟨sb1, si1, Extraction.collect_font_stats d⟩)
          Extraction.initSt)
        (d.pages.enum.foldl
          (Extraction.extract_page ⟨sb2, si2, Extraction.collect_font_stats d⟩)
          Extraction.initSt) :=
      foldl_relational
        (Extraction.extract_page ⟨sb1, si1, Extraction.collect_font_stats d⟩)
        (Extraction.extract_page ⟨sb2, si2, Extraction.collect_font_stats d⟩)
        (Extraction.Rel si1 si2)
        (fun a b pp hr =>
          rel_extract_page sb1 si1 sb2 si2 (Extraction.collect_font_stats d) hi1 hi2 pp hr)
        d.pages.enum Extraction.initSt Extraction.initSt
        ⟨rfl, rfl, rfl, rfl, rfl, rfl, rfl, rfl⟩
    have hbe :
        ((d.pages.enum.foldl
          (Extraction.extract_page ⟨sb1, si1, Extraction.collect_font_stats d⟩)
          Extraction.initSt).blocksRev.reverse).map Extraction.eraseBlock =
        ((d.pages.enum.foldl
          (Extraction.extract_page ⟨sb2, si2, Extraction.collect_font_stats d⟩)
          Extraction.initSt).blocksRev.reverse).map Extraction.eraseBlock := by
      rw [List.map_reverse, List.map_reverse, hrel.blocks]
    have ho :
        (Extraction.build_outline
          ((d.pages.enum.foldl
            (Extraction.extract_page ⟨sb1, si1, Extraction.collect_font_stats d⟩)
            Extraction.initSt).blocksRev.reverse)).map Extraction.eraseOutline =
        (Extraction.build_outline
          ((d.pages.enum.foldl
            (Extraction.extract_page ⟨sb2, si2, Extraction.collect_font_stats d⟩)
            Extraction.initSt).blocksRev.reverse)).map Extraction.eraseOutline := by
      rw [build_outline_factor, hbe, ← build_outline_factor]
    unfold Extraction.extract Extraction.eraseIds
    dsimp only
    simp only [Extraction.ExtractionResult.mk.injEq]
    exact ⟨hbe, extract_toc_erase d _ _ _ _ ho, images_erase _ _ hrel.imgs,
      trivial, by rw [hrel.ptp], trivial⟩

theorem C1_witness :
    Function.Injective Inputs.sInj ∧
      Extraction.eraseIds (Extraction.extract (some Inputs.D1) Inputs.sA Inputs.sInj) =
        Extraction.eraseIds (Extraction.extract (some Inputs.D1) Inputs.sB Inputs.sInj) := by
  have hinj : Function.Injective Inputs.sInj := by
    intro a b hab
    have hd : List.replicate a 'a' = List.replicate b 'a' :=
      congrArg String.data hab
    have hl := congrArg List.length hd
    simpa using hl
  exact ⟨hinj,
    C1_erased_determinism (some Inputs.D1) Inputs.sA Inputs.sInj Inputs.sB Inputs.sInj hinj hinj⟩
